import Mathlib

/-!
# finn: account API client over an HTTP transport

A shallow embedding of `http/client.go` (the transport: `Client.Do`,
`Client.CreateRequest`, `Client.validateStatusCode`), `api.go` (the account
client: `APIClient.Create`, `Fetch`, `List`, `Delete`, `Pagination`) and the
records of `account.go`.

Conventions of the embedding:

* a Go pointer `*T` is `Option T` (`none` is the nil pointer); a Go slice is
  `Option (List T)` (`none` is the nil slice); Go `int` is `Int`;
* a Go `error` is `Option Error` (`none` is the nil error);
* a Go `interface{}` argument is an `Option α` for a type `α` that carries a
  `JSON α` instance, the counterpart of the runtime type descriptor that
  `encoding/json` consults by reflection (`none` is the nil interface);
* `net/http`, `net/url` and `encoding/json` are not part of the repository:
  the capabilities the client consumes from them are fields of `Client` and
  methods of `JSON`;
* what the field tags of `account.go` make `encoding/json` do with the records
  is given on JSON values (`JVal`): `encodeAccount` and `decodeAccount`.
-/

namespace finn

/-! ## Errors -/

/-- Go `error` values that occur in the program. The five sentinels are the
package-level `errors.New` variables of `http/client.go` and `api.go`; every
`errors.New` allocates its own value, so they are pairwise distinct and distinct
from any other error. `errorString` is an error that only carries a message
(`errors.New`, `fmt.Errorf` without `%w`, a leaf error of a library);
`wrapped` is an error with a message and an `Unwrap` result. -/
inductive Error where
  | ErrContentNotFound
  | ErrNotAuthorized
  | ErrBadRequest
  | ErrInternalServer
  | ErrVersionConflict
  | errorString (s : String)
  | wrapped (s : String) (inner : Error)
  deriving DecidableEq, Repr

namespace Error

/-- The message of an error, the result of its `Error()` method. -/
def message : finn.Error → String
  | ErrContentNotFound => "content not found"
  | ErrNotAuthorized => "not authorized"
  | ErrBadRequest => "bad request"
  | ErrInternalServer => "internal server error"
  | ErrVersionConflict => "version conflict"
  | errorString s => s
  | wrapped s _ => s

/-- The function `errors.Is err target`: `err` or an error of its `Unwrap` chain is
`target`. -/
def Is : finn.Error → finn.Error → Bool
  | wrapped s inner, target =>
      decide (wrapped s inner = target) || Is inner target
  | err, target => decide (err = target)

end Error

/-- The call `fmt.Errorf(prefix + "%v", err)`: the format has no `%w` verb, so the
result is a fresh error holding only the formatted text; it wraps nothing. -/
def Errorf (pre : String) (err : Error) : Error :=
  Error.errorString (pre ++ err.message)

/-- The result of a Go function that may dereference a nil pointer: `nilDeref`
is the run-time panic, `ret a` a normal return. -/
inductive GoResult (α : Type) where
  | nilDeref
  | ret (a : α)
  deriving DecidableEq, Repr

/-! ## Contexts, requests and responses -/

/-- A `context.Context` as seen at the instant of a call: `Err` is the result of
`ctx.Err()`, nil while the context is neither cancelled nor past its deadline. -/
structure Context where
  Err : Option Error
  deriving DecidableEq, Repr

/-- The sentinel `context.Canceled`. -/
def Canceled : Error := Error.errorString "context canceled"

/-- The sentinel `context.DeadlineExceeded`. -/
def DeadlineExceeded : Error := Error.errorString "context deadline exceeded"

/-- The value `context.Background()`: never cancelled, no deadline. -/
def Background : Context := ⟨none⟩

/-- The parts of an `http.Request` the program touches. -/
structure Request where
  Method : String
  URL : String
  Body : String
  Header : List (String × String)
  ctx : Context
  deriving DecidableEq, Repr

/-- The method `(*http.Request).WithContext`: a shallow copy of the request that
carries `ctx`; the receiver is left unchanged. -/
def Request.WithContext (r : Request) (ctx : Context) : Request :=
  { r with ctx := ctx }

/-- The method `http.Header.Set`: replaces the values stored under `key`. -/
def HeaderSet (h : List (String × String)) (key value : String) :
    List (String × String) :=
  (key, value) :: h.filter (fun kv => kv.1 ≠ key)

/-- The method `http.Header.Get`: the first value stored under `key`, `""` if none. -/
def HeaderGet (h : List (String × String)) (key : String) : String :=
  match h.find? (fun kv => kv.1 = key) with
  | some kv => kv.2
  | none => ""

/-- The parts of an `http.Response` the program touches: the status code, the
bytes of the body stream, and whether `Body.Close()` has been called. -/
structure Response where
  StatusCode : Int
  Body : String
  Closed : Bool
  deriving DecidableEq, Repr

/-- The call `resp.Body.Close()`. -/
def Response.Close (r : Response) : Response :=
  { r with Closed := true }

/-- The capability `encoding/json` offers for a Go type: `Marshal` is
`json.Marshal(v)`; `Decode body v` is `json.NewDecoder(body).Decode(&v)`, which
returns the content of the target afterwards (a failing decode may have written
part of it) and the error. -/
class JSON (α : Type) where
  Marshal : α → Except Error String
  Decode : String → α → α × Option Error

namespace http

/-! ## Package http: the transport (`http/client.go`) -/

def jsonContentType : String := "application/vnd.api+json"

def StatusOK : Int := 200
def StatusCreated : Int := 201
def StatusNoContent : Int := 204
def StatusMultipleChoices : Int := 300
def StatusBadRequest : Int := 400
def StatusForbidden : Int := 403
def StatusNotFound : Int := 404
def StatusConflict : Int := 409

def MethodGet : String := "GET"
def MethodPost : String := "POST"
def MethodDelete : String := "DELETE"

/-- The struct `Client`. `client` is `c.client.Do`: the underlying HTTP send, which
yields a response or an error. `baseURL` is `c.baseURL.Parse(url)` followed by
`String()`: the resolution of a reference against the base URL. `reqErr` is the
validation `http.NewRequest` performs on a method and a URL (nil when both are
accepted). -/
structure Client where
  client : Request → Except Error Response
  baseURL : String → Except Error String
  reqErr : String → String → Option Error

/-- The function `http.NewRequest(method, url, bytes.NewReader(buf))`: after the
validation, a request with the given method (`GET` for the empty method), URL and
body, no header and the background context. -/
def NewRequest (reqErr : String → String → Option Error) (method url buf : String) :
    Except Error Request :=
  match reqErr method url with
  | some e => .error e
  | none =>
      .ok { Method := if method = "" then "GET" else method
            URL := url
            Body := buf
            Header := []
            ctx := Background }

/-- What `Do` hands back: the response pointer, the error, and `written`, the
value the call stored in the target `v` (`none` when it stored nothing). -/
structure DoResult (α : Type) where
  resp : Option Response
  err : Option Error
  written : Option α

/-- The method `Client.validateStatusCode`. -/
def Client.validateStatusCode (_c : Client) (statusCode : Int) : Option Error :=
  if StatusOK ≤ statusCode ∧ statusCode < StatusMultipleChoices then
    none
  else if statusCode = StatusNotFound then
    some Error.ErrContentNotFound
  else if statusCode = StatusBadRequest then
    some Error.ErrBadRequest
  else if statusCode = StatusForbidden then
    some Error.ErrNotAuthorized
  else
    some Error.ErrInternalServer

/-- The method `Client.Do`. The copy made by `req.WithContext(ctx)` is not
assigned, so the request sent is `req` itself. The deferred `Body.Close()` is
registered after the status check, so it runs on the paths below it only. -/
def Client.Do (c : Client) (α : Type) [JSON α] (ctx : Context) (req : Request)
    (v : Option α) : DoResult α :=
  let _ := req.WithContext ctx
  match c.client req with
  | .error err => ⟨none, some err, none⟩
  | .ok resp =>
    match c.validateStatusCode resp.StatusCode with
    | some err => ⟨some resp, some err, none⟩
    | none =>
      match v with
      | some target =>
        match JSON.Decode resp.Body target with
        | (target', some unMarshallErr) => ⟨some resp.Close, some unMarshallErr, some target'⟩
        | (target', none) => ⟨some resp.Close, none, some target'⟩
      | none => ⟨some resp.Close, none, none⟩

/-- The method `Client.CreateRequest`. -/
def Client.CreateRequest (c : Client) (β : Type) [JSON β] (method url : String)
    (body : Option β) : Except Error Request :=
  match c.baseURL url with
  | .error err => .error err
  | .ok uri =>
    let marshalled : Except Error String :=
      match body with
      | some b => JSON.Marshal b
      | none => .ok ""
    match marshalled with
    | .error marshallErr => .error marshallErr
    | .ok buf =>
      match NewRequest c.reqErr method uri buf with
      | .error reqErr => .error reqErr
      | .ok req =>
        match body with
        | some _ => .ok { req with Header := HeaderSet req.Header "Content-Type" jsonContentType }
        | none => .ok req

end http

/-! ## Package finn: the records of `account.go` -/

/-- The struct `Data`. -/
structure Data where
  Type_ : String := ""
  ID : String := ""
  deriving DecidableEq, Repr

/-- The struct `MasterAccount`. -/
structure MasterAccount where
  Data : Option (List (Option Data)) := none
  deriving DecidableEq, Repr

/-- The struct `AccountEvents`. -/
structure AccountEvents where
  Data : Option (List (Option Data)) := none
  deriving DecidableEq, Repr

/-- The struct `Relationships`. -/
structure Relationships where
  Master : Option MasterAccount := none
  Events : Option AccountEvents := none
  deriving DecidableEq, Repr

/-- The struct `Actors`. -/
structure Actors where
  Name : Option (List String) := none
  BirthDate : String := ""
  Residency : String := ""
  deriving DecidableEq, Repr

/-- The struct `OrganisationIdentification`. -/
structure OrganisationIdentification where
  Identification : String := ""
  Actors : Option (List (Option Actors)) := none
  Address : Option (List String) := none
  City : String := ""
  Country : String := ""
  deriving DecidableEq, Repr

/-- The struct `PrivateIdentification`. -/
structure PrivateIdentification where
  BirthDate : String := ""
  BirthCountry : String := ""
  Identification : String := ""
  Address : String := ""
  City : String := ""
  Country : String := ""
  deriving DecidableEq, Repr

/-- The struct `Attributes`. -/
structure Attributes where
  Country : String := ""
  BaseCurrency : String := ""
  AccountNumber : String := ""
  BankID : String := ""
  BankIDCode : String := ""
  Bic : String := ""
  Iban : String := ""
  Name : Option (List String) := none
  AlternativeNames : Option (List String) := none
  AccountClassification : String := ""
  JointAccount : Bool := false
  AccountMatchingOptOut : Bool := false
  SecondaryID : String := ""
  Switched : Bool := false
  PrivateID : Option PrivateIdentification := none
  OrganisationID : Option OrganisationIdentification := none
  Status : String := ""
  deriving DecidableEq, Repr

/-- The struct `AccoundData`. -/
structure AccoundData where
  Type_ : String := ""
  ID : String := ""
  OrganisationID : String := ""
  Version : Int := 0
  Attributes : Option Attributes := none
  Relationships : Option Relationships := none
  deriving DecidableEq, Repr

/-- The struct `Account`; `{}` is the zero value `Account{}`. -/
structure Account where
  AccoundData : Option AccoundData := none
  deriving DecidableEq, Repr

/-- The struct `LinkList`. -/
structure LinkList where
  First : String := ""
  Last : String := ""
  Self : String := ""
  deriving DecidableEq, Repr

/-- The struct `AccountList`; `{}` is the zero value `AccountList{}`. -/
structure AccountList where
  Accounts : Option (List (Option AccoundData)) := none
  Links : Option LinkList := none
  deriving DecidableEq, Repr

/-! ## Package finn: the account client (`api.go`) -/

def apVersion : String := "v1"

def path : String := "organisation/accounts"

/-- The dynamic type of the nil interface: it has no value, so a call that passes
`nil` for an `interface{}` passes `(none : Option Empty)`. -/
instance : JSON Empty where
  Marshal e := e.elim
  Decode _ e := e.elim

/-- The interface `httpClient`. -/
structure httpClient where
  Do : (α : Type) → [JSON α] → Context → Request → Option α → http.DoResult α
  CreateRequest : (β : Type) → [JSON β] → String → String → Option β → Except Error Request

/-- A `*http.Client` of package http used as an `httpClient`. -/
def http.Client.toHttpClient (c : http.Client) : httpClient where
  Do := fun α _ ctx req v => c.Do α ctx req v
  CreateRequest := fun β _ method url body => c.CreateRequest β method url body

/-- The struct `APIClient`. -/
structure APIClient where
  api : httpClient

/-- The function `NewAPIClient`. -/
def NewAPIClient (api : httpClient) : APIClient :=
  { api := api }

/-- The verb `%d` of `fmt.Sprintf` on an `int`. -/
def fmtInt (i : Int) : String :=
  if i < 0 then "-" ++ Nat.repr i.natAbs else Nat.repr i.natAbs

/-- The struct `Pagination`. -/
structure Pagination where
  Page : Int
  Size : Int
  deriving DecidableEq, Repr

/-- The function `NewPagination`. -/
def NewPagination (page size : Int) : Pagination :=
  { Page := page, Size := size }

/-- The method `Pagination.QueryString`, on a non-nil receiver. -/
def Pagination.QueryString (p : Pagination) : String :=
  "page[number]=" ++ fmtInt p.Page ++ "&page[size]=" ++ fmtInt p.Size

/-- The method `APIClient.Create`. The body handed to `CreateRequest` is the
pointer `account` itself, a non-nil interface even when the pointer is nil. The
status code is read from `resp` without a nil check. -/
def APIClient.Create [JSON Account] [JSON (Option Account)] (c : APIClient)
    (ctx : Context) (account : Option Account) :
    GoResult (Option Account × Option Error) :=
  let uri := apVersion ++ "/" ++ path
  match c.api.CreateRequest (Option Account) http.MethodPost uri (some account) with
  | .error respErr =>
    .ret (none, some (Errorf "unexpected error creating request, error " respErr))
  | .ok req =>
    let acc : Account := {}
    let r := c.api.Do Account ctx req (some acc)
    let acc := r.written.getD acc
    match r.err with
    | some respErr =>
      .ret (none, some (Errorf "unexpected error executing http request, error " respErr))
    | none =>
      match r.resp with
      | none => .nilDeref
      | some resp =>
        if resp.StatusCode ≠ http.StatusCreated then
          .ret (none, some Error.ErrInternalServer)
        else
          .ret (some acc, none)

/-- The method `APIClient.Fetch`. -/
def APIClient.Fetch [JSON Account] (c : APIClient) (ctx : Context) (uuid : String) :
    Option Account × Option Error :=
  let uri := apVersion ++ "/" ++ path ++ "/" ++ uuid
  match c.api.CreateRequest Empty http.MethodGet uri none with
  | .error err => (none, some err)
  | .ok req =>
    let a : Account := {}
    let r := c.api.Do Account ctx req (some a)
    let a := r.written.getD a
    match r.err with
    | some err => (none, some err)
    | none => (some a, none)

/-- The method `APIClient.List`. `pags.QueryString()` reads the fields of `pags`,
which panics on a nil pointer. -/
def APIClient.List [JSON AccountList] (c : APIClient) (ctx : Context)
    (pags : Option Pagination) : GoResult (Option AccountList × Option Error) :=
  match pags with
  | none => .nilDeref
  | some p =>
    let uri := apVersion ++ "/" ++ path ++ "?" ++ p.QueryString
    match c.api.CreateRequest Empty http.MethodGet uri none with
    | .error err => .ret (none, some err)
    | .ok req =>
      let a : AccountList := {}
      let r := c.api.Do AccountList ctx req (some a)
      let a := r.written.getD a
      match r.err with
      | some err => .ret (none, some err)
      | none => .ret (some a, none)

/-- The method `APIClient.Delete`. -/
def APIClient.Delete (c : APIClient) (ctx : Context) (uuid : String) (version : Int) :
    Option Error :=
  let uri := apVersion ++ "/" ++ path ++ "/" ++ uuid ++ "?version=" ++ fmtInt version
  match c.api.CreateRequest Empty http.MethodDelete uri none with
  | .error err => some err
  | .ok req =>
    let r := c.api.Do Empty ctx req none
    match r.resp with
    | some resp =>
      if resp.StatusCode = http.StatusNoContent then
        none
      else if resp.StatusCode = http.StatusConflict then
        some Error.ErrVersionConflict
      else
        r.err
    | none => r.err

/-! ## Transports used to exercise the client -/

/-- The struct `fakeHTTPClient` of `api_test.go`; `{}` is the zero value. -/
structure fakeHTTPClient where
  statusCode : Int := 0
  body : Option String := none
  err : Option Error := none

/-- The method `fakeHTTPClient.Do` of `api_test.go`: when both the target and the
canned body are non-nil the body is unmarshalled into the target, and a failure
is returned with a nil response; otherwise the canned status and error. -/
def fakeHTTPClient.Do (f : fakeHTTPClient) (α : Type) [JSON α] (_ctx : Context)
    (_req : Request) (v : Option α) : http.DoResult α :=
  let resp : Response := ⟨f.statusCode, f.body.getD "", false⟩
  match v, f.body with
  | some target, some body =>
    match JSON.Decode body target with
    | (target', some err) => ⟨none, some err, some target'⟩
    | (target', none) => ⟨some resp, f.err, some target'⟩
  | _, _ => ⟨some resp, f.err, none⟩

/-- The method `fakeHTTPClient.CreateRequest` of `api_test.go`:
`http.NewRequest(method, url, nil)`, the body argument ignored. -/
def fakeHTTPClient.CreateRequest (_f : fakeHTTPClient) (reqErr : String → String → Option Error)
    (β : Type) [JSON β] (method url : String) (_body : Option β) : Except Error Request :=
  http.NewRequest reqErr method url ""

/-- A `*fakeHTTPClient` used as an `httpClient`, over a `http.NewRequest` that
accepts every method and URL. -/
def fakeHTTPClient.toHttpClient (f : fakeHTTPClient) : httpClient where
  Do := fun α _ ctx req v => f.Do α ctx req v
  CreateRequest := fun β _ method url body =>
    f.CreateRequest (fun _ _ => none) β method url body

/-- A codec that knows one document: the value `b` marshals to `text` and the body
`text` decodes to `b`; any other value is refused by `Marshal` and any other body
by `Decode`, which then leaves the target as it was. -/
def fixedJSON (α : Type) [DecidableEq α] (text : String) (b : α) : JSON α where
  Marshal := fun v =>
    if v = b then .ok text else .error (Error.errorString "json: unsupported value")
  Decode := fun body target =>
    if body = text then (b, none)
    else (target, some (Error.errorString "invalid character"))

/-- An HTTP send that honours the context carried by the request it is given, as
that of `net/http` does: when that context is done the send fails with the
context error, otherwise the server answers `resp`. -/
def ctxSend (resp : Response) (req : Request) : Except Error Response :=
  match req.ctx.Err with
  | some e => .error e
  | none => .ok resp

/-- A `Client` of package http whose server answers every request with `resp`,
whose base URL is `http://accountapi:8080/` with references appended to it, and
whose `http.NewRequest` accepts every method and URL. -/
def serverClient (resp : Response) : http.Client where
  client := ctxSend resp
  baseURL := fun url => .ok ("http://accountapi:8080/" ++ url)
  reqErr := fun _ _ => none

/-- An account as a server echoes it: the resource `u1` at version 0. -/
def echoed : Account :=
  { AccoundData := some { Type_ := "accounts", ID := "u1", OrganisationID := "o1" } }

/-- The JSON document of `echoed`. -/
def echoedText : String :=
  "\x7b\"data\":\x7b\"type\":\"accounts\",\"id\":\"u1\",\"organisation_id\":\"o1\"," ++
  "\"version\":0,\"attributes\":null,\"relationships\":null\x7d\x7d"

/-- The JSON document of the zero `AccountList`. -/
def emptyListText : String :=
  "\x7b\"data\":null,\"links\":null\x7d"

/-- The codec of `Account` restricted to the document of `echoed`. -/
def accountJSON : JSON Account := fixedJSON Account echoedText echoed

/-- The codec of `*Account` restricted to the document of `echoed`. -/
def accountPtrJSON : JSON (Option Account) :=
  fixedJSON (Option Account) echoedText (some echoed)

/-- The codec of `AccountList` restricted to the document of the zero list. -/
def accountListJSON : JSON AccountList := fixedJSON AccountList emptyListText {}

/-- The token characters of an HTTP method, as `net/http` tests them: letters,
digits and the marks of RFC 7230. -/
def isTokenChar (c : Char) : Bool :=
  c.isAlphanum || [33, 35, 36, 37, 38, 39, 42, 43, 45, 46, 94, 95, 96, 124, 126].contains c.toNat

/-- The function `validMethod` of `net/http`: a non-empty string of token
characters. -/
def validMethod (method : String) : Bool :=
  !method.data.isEmpty && method.data.all isTokenChar

/-- The validation `http.NewRequest` performs on the method (the empty method
stands for `GET`); every URL is taken as accepted. -/
def methodReqErr (method _url : String) : Option Error :=
  if validMethod (if method = "" then "GET" else method) then none
  else some (Error.errorString ("net/http: invalid method \"" ++ method ++ "\""))

/-- The `Client` of `serverClient` with the method validation of `http.NewRequest`. -/
def strictClient (resp : Response) : http.Client :=
  { serverClient resp with reqErr := methodReqErr }

/-- A transport that builds no request but the one for `method` and `url`, for
which it defers to `t`; it executes requests as `t` does. -/
def onlyRequest (t : httpClient) (method url : String) : httpClient where
  Do := t.Do
  CreateRequest := fun β _ m u body =>
    if m = method ∧ u = url then t.CreateRequest β m u body
    else .error (Error.errorString "unexpected request")

/-! ## The JSON form of the records

What `encoding/json` does with the records of `account.go`, as their field tags
direct, on JSON values (the text of a document and its parsing are left to the
library). `encode…` is `json.Marshal`; `decode… v cur` is the decoding of the value
`v` into a target that currently holds `cur`, so that the decoding into a fresh
`&Account{}` is `decodeAccount v {}`.

The strings of the records are Lean strings, sequences of Unicode scalar values.
These are the strings decoding yields (the decoder replaces invalid UTF-8 by
U+FFFD), and `json.Marshal` keeps their text. A Go string that holds invalid
UTF-8, which `json.Marshal` coerces to U+FFFD, has no counterpart here: the
encoders speak for records whose strings are valid UTF-8, as every decoded record
is. -/

/-- A JSON value; `num` is an integer numeral, `frac` any other numeral. -/
inductive JVal where
  | null
  | bool (b : Bool)
  | num (i : Int)
  | frac (text : String)
  | str (s : String)
  | arr (xs : List JVal)
  | obj (members : List (String × JVal))

/-- The error `json.UnmarshalTypeError`: a value that does not fit its target. -/
def typeError (target : String) : Error :=
  Error.errorString ("json: cannot unmarshal value into Go value of type " ++ target)

/-- The encoding of a pointer: `null` for nil, the pointee otherwise. -/
def encPtr {α : Type} (enc : α → JVal) : Option α → JVal
  | none => .null
  | some a => enc a

/-- The encoding of a slice: `null` for the nil slice, an array otherwise. -/
def encSlice {α : Type} (enc : α → JVal) : Option (List α) → JVal
  | none => .null
  | some xs => .arr (xs.map enc)

/-- A string member tagged `omitempty`: left out when the string is empty. -/
def omitString (key : String) (s : String) : List (String × JVal) :=
  if s = "" then [] else [(key, .str s)]

/-- A boolean member tagged `omitempty`: left out when false. -/
def omitBool (key : String) (b : Bool) : List (String × JVal) :=
  if b = false then [] else [(key, .bool b)]

/-- A slice member tagged `omitempty`: left out when the slice has length 0, nil or
not. -/
def omitSlice {α : Type} (key : String) (enc : α → JVal) (xs : Option (List α)) :
    List (String × JVal) :=
  if (xs.getD []).isEmpty then [] else [(key, encSlice enc xs)]

/-- A pointer member tagged `omitempty`: left out when nil. -/
def omitPtr {α : Type} (key : String) (enc : α → JVal) : Option α → List (String × JVal)
  | none => []
  | some a => [(key, enc a)]

/-- Decoding into a `string`: `null` leaves the target as it is. -/
def decString : JVal → String → Except Error String
  | .null, cur => .ok cur
  | .str s, _ => .ok s
  | _, _ => .error (typeError "string")

/-- Decoding into an `int` (64 bits): `null` leaves the target as it is, a numeral
out of range is refused. -/
def decInt : JVal → Int → Except Error Int
  | .null, cur => .ok cur
  | .num i, _ =>
    if -(2 : Int) ^ 63 ≤ i ∧ i < (2 : Int) ^ 63 then .ok i else .error (typeError "int")
  | _, _ => .error (typeError "int")

/-- Decoding into a `bool`: `null` leaves the target as it is. -/
def decBool : JVal → Bool → Except Error Bool
  | .null, cur => .ok cur
  | .bool b, _ => .ok b
  | _, _ => .error (typeError "bool")

/-- Decoding into a pointer: `null` sets it to nil; any other value is decoded into
the pointee, a fresh zero value when the pointer is nil. -/
def decPtr {α : Type} (dec : JVal → α → Except Error α) (zero : α) :
    JVal → Option α → Except Error (Option α)
  | .null, _ => .ok none
  | v, cur =>
    match dec v (cur.getD zero) with
    | .error e => .error e
    | .ok a => .ok (some a)

/-- Decoding the elements of an array, each into the element the slice holds at
that index, a zero value beyond its length. -/
def decElems {α : Type} (dec : JVal → α → Except Error α) (zero : α) :
    List JVal → List α → Except Error (List α)
  | [], _ => .ok []
  | x :: xs, cur =>
    match dec x (cur.headD zero) with
    | .error e => .error e
    | .ok a =>
      match decElems dec zero xs cur.tail with
      | .error e => .error e
      | .ok rest => .ok (a :: rest)

/-- Decoding into a slice: `null` sets it to nil; an array gives a non-nil slice of
the decoded elements, empty for the empty array. -/
def decSlice {α : Type} (dec : JVal → α → Except Error α) (zero : α) :
    JVal → Option (List α) → Except Error (Option (List α))
  | .null, _ => .ok none
  | .arr xs, cur =>
    match decElems dec zero xs (cur.getD []) with
    | .error e => .error e
    | .ok ys => .ok (some ys)
  | _, _ => .error (typeError "slice")

/-- The field a member name selects: the field of that exact name, else the first
field whose name matches under `eqFold` (the case folding of `strings.EqualFold`). -/
def lookupField (eqFold : String → String → Bool) (names : List String) (key : String) :
    Option String :=
  if names.contains key then some key else names.find? (fun n => eqFold n key)

/-- Decoding the members of an object into a struct, in document order: a member
that selects no field is skipped, the first failure is the result. -/
def decMembers {σ : Type} (eqFold : String → String → Bool) (names : List String)
    (set : String → JVal → σ → Except Error σ) :
    List (String × JVal) → σ → Except Error σ
  | [], cur => .ok cur
  | (k, v) :: rest, cur =>
    match lookupField eqFold names k with
    | none => decMembers eqFold names set rest cur
    | some n =>
      match set n v cur with
      | .error e => .error e
      | .ok cur' => decMembers eqFold names set rest cur'

/-- Decoding into a struct: `null` leaves the target as it is, an object is decoded
member by member. -/
def decStruct {σ : Type} (eqFold : String → String → Bool) (names : List String)
    (set : String → JVal → σ → Except Error σ) : JVal → σ → Except Error σ
  | .null, cur => .ok cur
  | .obj members, cur => decMembers eqFold names set members cur
  | _, _ => .error (typeError "struct")

/-- The function `Except.map`, spelled out: the update of one field by a decoded
value. -/
def setWith {α σ : Type} (r : Except Error α) (put : α → σ) : Except Error σ :=
  match r with
  | .error e => .error e
  | .ok a => .ok (put a)

/-- The encoding of a `Data`. -/
def encodeData (d : Data) : JVal :=
  .obj [("type", .str d.Type_), ("id", .str d.ID)]

/-- The encoding of a `MasterAccount`. -/
def encodeMasterAccount (m : MasterAccount) : JVal :=
  .obj [("data", encSlice (encPtr encodeData) m.Data)]

/-- The encoding of an `AccountEvents`. -/
def encodeAccountEvents (m : AccountEvents) : JVal :=
  .obj [("data", encSlice (encPtr encodeData) m.Data)]

/-- The encoding of a `Relationships`. -/
def encodeRelationships (r : Relationships) : JVal :=
  .obj [("master_account", encPtr encodeMasterAccount r.Master),
        ("account_events", encPtr encodeAccountEvents r.Events)]

/-- The encoding of an `Actors`. -/
def encodeActors (a : Actors) : JVal :=
  .obj [("name", encSlice JVal.str a.Name), ("birth_date", .str a.BirthDate),
        ("residency", .str a.Residency)]

/-- The encoding of an `OrganisationIdentification`. -/
def encodeOrganisationIdentification (o : OrganisationIdentification) : JVal :=
  .obj [("identification", .str o.Identification),
        ("actors", encSlice (encPtr encodeActors) o.Actors),
        ("address", encSlice JVal.str o.Address),
        ("city", .str o.City), ("country", .str o.Country)]

/-- The encoding of a `PrivateIdentification`. -/
def encodePrivateIdentification (p : PrivateIdentification) : JVal :=
  .obj [("birth_date", .str p.BirthDate), ("birth_country", .str p.BirthCountry),
        ("identification", .str p.Identification), ("address", .str p.Address),
        ("city", .str p.City), ("country", .str p.Country)]

/-- The members of the encoding of an `Attributes`, in field order: `country`
always, every other field under `omitempty`. -/
def attributesMembers (a : Attributes) : List (String × JVal) :=
  [("country", .str a.Country)] ++
  omitString "base_currency" a.BaseCurrency ++
  omitString "account_number" a.AccountNumber ++
  omitString "bank_id" a.BankID ++
  omitString "bank_id_code" a.BankIDCode ++
  omitString "bic" a.Bic ++
  omitString "iban" a.Iban ++
  omitSlice "name" JVal.str a.Name ++
  omitSlice "alternative_names" JVal.str a.AlternativeNames ++
  omitString "account_classification" a.AccountClassification ++
  omitBool "joint_account" a.JointAccount ++
  omitBool "account_matching_opt_out" a.AccountMatchingOptOut ++
  omitString "secondary_identification" a.SecondaryID ++
  omitBool "switched" a.Switched ++
  omitPtr "private_identification" encodePrivateIdentification a.PrivateID ++
  omitPtr "organisation_identification" encodeOrganisationIdentification a.OrganisationID ++
  omitString "status" a.Status

/-- The encoding of an `Attributes`. -/
def encodeAttributes (a : Attributes) : JVal :=
  .obj (attributesMembers a)

/-- The encoding of an `AccoundData`. -/
def encodeAccoundData (d : AccoundData) : JVal :=
  .obj [("type", .str d.Type_), ("id", .str d.ID),
        ("organisation_id", .str d.OrganisationID), ("version", .num d.Version),
        ("attributes", encPtr encodeAttributes d.Attributes),
        ("relationships", encPtr encodeRelationships d.Relationships)]

/-- The encoding of an `Account`. -/
def encodeAccount (a : Account) : JVal :=
  .obj [("data", encPtr encodeAccoundData a.AccoundData)]

/-- The decoding of one member into a `Data`. -/
def setData (n : String) (v : JVal) (d : Data) : Except Error Data :=
  if n = "type" then setWith (decString v d.Type_) (fun x => { d with Type_ := x })
  else if n = "id" then setWith (decString v d.ID) (fun x => { d with ID := x })
  else .ok d

/-- The decoding into a `Data`. -/
def decodeData (eqFold : String → String → Bool) : JVal → Data → Except Error Data :=
  decStruct eqFold ["type", "id"] setData

/-- The decoding of one member into a `MasterAccount`. -/
def setMasterAccount (eqFold : String → String → Bool) (n : String) (v : JVal)
    (m : MasterAccount) : Except Error MasterAccount :=
  if n = "data" then
    setWith (decSlice (decPtr (decodeData eqFold) {}) none v m.Data)
      (fun x => { m with Data := x })
  else .ok m

/-- The decoding into a `MasterAccount`. -/
def decodeMasterAccount (eqFold : String → String → Bool) :
    JVal → MasterAccount → Except Error MasterAccount :=
  decStruct eqFold ["data"] (setMasterAccount eqFold)

/-- The decoding of one member into an `AccountEvents`. -/
def setAccountEvents (eqFold : String → String → Bool) (n : String) (v : JVal)
    (m : AccountEvents) : Except Error AccountEvents :=
  if n = "data" then
    setWith (decSlice (decPtr (decodeData eqFold) {}) none v m.Data)
      (fun x => { m with Data := x })
  else .ok m

/-- The decoding into an `AccountEvents`. -/
def decodeAccountEvents (eqFold : String → String → Bool) :
    JVal → AccountEvents → Except Error AccountEvents :=
  decStruct eqFold ["data"] (setAccountEvents eqFold)

/-- The decoding of one member into a `Relationships`. -/
def setRelationships (eqFold : String → String → Bool) (n : String) (v : JVal)
    (r : Relationships) : Except Error Relationships :=
  if n = "master_account" then
    setWith (decPtr (decodeMasterAccount eqFold) {} v r.Master)
      (fun x => { r with Master := x })
  else if n = "account_events" then
    setWith (decPtr (decodeAccountEvents eqFold) {} v r.Events)
      (fun x => { r with Events := x })
  else .ok r

/-- The decoding into a `Relationships`. -/
def decodeRelationships (eqFold : String → String → Bool) :
    JVal → Relationships → Except Error Relationships :=
  decStruct eqFold ["master_account", "account_events"] (setRelationships eqFold)

/-- The decoding of one member into an `Actors`. -/
def setActors (n : String) (v : JVal) (a : Actors) : Except Error Actors :=
  if n = "name" then setWith (decSlice decString "" v a.Name) (fun x => { a with Name := x })
  else if n = "birth_date" then
    setWith (decString v a.BirthDate) (fun x => { a with BirthDate := x })
  else if n = "residency" then
    setWith (decString v a.Residency) (fun x => { a with Residency := x })
  else .ok a

/-- The decoding into an `Actors`. -/
def decodeActors (eqFold : String → String → Bool) : JVal → Actors → Except Error Actors :=
  decStruct eqFold ["name", "birth_date", "residency"] setActors

/-- The decoding of one member into an `OrganisationIdentification`. -/
def setOrganisationIdentification (eqFold : String → String → Bool) (n : String)
    (v : JVal) (o : OrganisationIdentification) : Except Error OrganisationIdentification :=
  if n = "identification" then
    setWith (decString v o.Identification) (fun x => { o with Identification := x })
  else if n = "actors" then
    setWith (decSlice (decPtr (decodeActors eqFold) {}) none v o.Actors)
      (fun x => { o with Actors := x })
  else if n = "address" then
    setWith (decSlice decString "" v o.Address) (fun x => { o with Address := x })
  else if n = "city" then setWith (decString v o.City) (fun x => { o with City := x })
  else if n = "country" then
    setWith (decString v o.Country) (fun x => { o with Country := x })
  else .ok o

/-- The decoding into an `OrganisationIdentification`. -/
def decodeOrganisationIdentification (eqFold : String → String → Bool) :
    JVal → OrganisationIdentification → Except Error OrganisationIdentification :=
  decStruct eqFold ["identification", "actors", "address", "city", "country"]
    (setOrganisationIdentification eqFold)

/-- The decoding of one member into a `PrivateIdentification`. -/
def setPrivateIdentification (n : String) (v : JVal) (p : PrivateIdentification) :
    Except Error PrivateIdentification :=
  if n = "birth_date" then
    setWith (decString v p.BirthDate) (fun x => { p with BirthDate := x })
  else if n = "birth_country" then
    setWith (decString v p.BirthCountry) (fun x => { p with BirthCountry := x })
  else if n = "identification" then
    setWith (decString v p.Identification) (fun x => { p with Identification := x })
  else if n = "address" then
    setWith (decString v p.Address) (fun x => { p with Address := x })
  else if n = "city" then setWith (decString v p.City) (fun x => { p with City := x })
  else if n = "country" then
    setWith (decString v p.Country) (fun x => { p with Country := x })
  else .ok p

/-- The decoding into a `PrivateIdentification`. -/
def decodePrivateIdentification (eqFold : String → String → Bool) :
    JVal → PrivateIdentification → Except Error PrivateIdentification :=
  decStruct eqFold
    ["birth_date", "birth_country", "identification", "address", "city", "country"]
    setPrivateIdentification

/-- The member names of an `Attributes`, in field order. -/
def attributesNames : List String :=
  ["country", "base_currency", "account_number", "bank_id", "bank_id_code", "bic", "iban",
   "name", "alternative_names", "account_classification", "joint_account",
   "account_matching_opt_out", "secondary_identification", "switched",
   "private_identification", "organisation_identification", "status"]

/-- The decoding of one member into an `Attributes`. -/
def setAttributes (eqFold : String → String → Bool) (n : String) (v : JVal)
    (a : Attributes) : Except Error Attributes :=
  if n = "country" then setWith (decString v a.Country) (fun x => { a with Country := x })
  else if n = "base_currency" then
    setWith (decString v a.BaseCurrency) (fun x => { a with BaseCurrency := x })
  else if n = "account_number" then
    setWith (decString v a.AccountNumber) (fun x => { a with AccountNumber := x })
  else if n = "bank_id" then setWith (decString v a.BankID) (fun x => { a with BankID := x })
  else if n = "bank_id_code" then
    setWith (decString v a.BankIDCode) (fun x => { a with BankIDCode := x })
  else if n = "bic" then setWith (decString v a.Bic) (fun x => { a with Bic := x })
  else if n = "iban" then setWith (decString v a.Iban) (fun x => { a with Iban := x })
  else if n = "name" then
    setWith (decSlice decString "" v a.Name) (fun x => { a with Name := x })
  else if n = "alternative_names" then
    setWith (decSlice decString "" v a.AlternativeNames)
      (fun x => { a with AlternativeNames := x })
  else if n = "account_classification" then
    setWith (decString v a.AccountClassification)
      (fun x => { a with AccountClassification := x })
  else if n = "joint_account" then
    setWith (decBool v a.JointAccount) (fun x => { a with JointAccount := x })
  else if n = "account_matching_opt_out" then
    setWith (decBool v a.AccountMatchingOptOut)
      (fun x => { a with AccountMatchingOptOut := x })
  else if n = "secondary_identification" then
    setWith (decString v a.SecondaryID) (fun x => { a with SecondaryID := x })
  else if n = "switched" then
    setWith (decBool v a.Switched) (fun x => { a with Switched := x })
  else if n = "private_identification" then
    setWith (decPtr (decodePrivateIdentification eqFold) {} v a.PrivateID)
      (fun x => { a with PrivateID := x })
  else if n = "organisation_identification" then
    setWith (decPtr (decodeOrganisationIdentification eqFold) {} v a.OrganisationID)
      (fun x => { a with OrganisationID := x })
  else if n = "status" then setWith (decString v a.Status) (fun x => { a with Status := x })
  else .ok a

/-- The decoding into an `Attributes`. -/
def decodeAttributes (eqFold : String → String → Bool) :
    JVal → Attributes → Except Error Attributes :=
  decStruct eqFold attributesNames (setAttributes eqFold)

/-- The decoding of one member into an `AccoundData`. -/
def setAccoundData (eqFold : String → String → Bool) (n : String) (v : JVal)
    (d : AccoundData) : Except Error AccoundData :=
  if n = "type" then setWith (decString v d.Type_) (fun x => { d with Type_ := x })
  else if n = "id" then setWith (decString v d.ID) (fun x => { d with ID := x })
  else if n = "organisation_id" then
    setWith (decString v d.OrganisationID) (fun x => { d with OrganisationID := x })
  else if n = "version" then
    setWith (decInt v d.Version) (fun x => { d with Version := x })
  else if n = "attributes" then
    setWith (decPtr (decodeAttributes eqFold) {} v d.Attributes)
      (fun x => { d with Attributes := x })
  else if n = "relationships" then
    setWith (decPtr (decodeRelationships eqFold) {} v d.Relationships)
      (fun x => { d with Relationships := x })
  else .ok d

/-- The decoding into an `AccoundData`. -/
def decodeAccoundData (eqFold : String → String → Bool) :
    JVal → AccoundData → Except Error AccoundData :=
  decStruct eqFold
    ["type", "id", "organisation_id", "version", "attributes", "relationships"]
    (setAccoundData eqFold)

/-- The decoding of one member into an `Account`. -/
def setAccount (eqFold : String → String → Bool) (n : String) (v : JVal) (a : Account) :
    Except Error Account :=
  if n = "data" then
    setWith (decPtr (decodeAccoundData eqFold) {} v a.AccoundData)
      (fun x => { a with AccoundData := x })
  else .ok a

/-- The decoding into an `Account`: `json.Unmarshal(doc, &Account{})` is
`decodeAccount eqFold doc {}`. -/
def decodeAccount (eqFold : String → String → Bool) : JVal → Account → Except Error Account :=
  decStruct eqFold ["data"] (setAccount eqFold)

/-- The case folding of member names restricted to ASCII letters. -/
def asciiFold (a b : String) : Bool :=
  a.data.map Char.toLower = b.data.map Char.toLower

/-- An account whose `name` attribute is the empty, non-nil list. -/
def emptyNamed : Account :=
  { AccoundData := some { Attributes := some { Country := "GB", Name := some [] } } }

/-- A document with an empty `name` array, which decodes to `emptyNamed`. -/
def emptyNamedDoc : JVal :=
  .obj [("data", .obj [("attributes", .obj [("country", .str "GB"), ("name", .arr [])])])]

/-- A fully populated account, after the document of `account_test.go`. -/
def populated : Account :=
  { AccoundData := some
      { Type_ := "accounts", ID := "ad27e265", OrganisationID := "eb0bd6f5", Version := 0,
        Attributes := some
          { Country := "GB", BaseCurrency := "GBP", AccountNumber := "41426819",
            Name := some ["Samantha Holder"], AlternativeNames := some ["Sam Holder"],
            AccountClassification := "Personal", JointAccount := true,
            PrivateID := some { BirthDate := "2017-07-23", City := "London" },
            OrganisationID := some
              { Identification := "123654",
                Actors := some [some { Name := some ["Jeff Page"], Residency := "GB" }],
                Address := some [] },
            Status := "confirmed" },
        Relationships := some
          { Master := some { Data := some [some { Type_ := "accounts", ID := "a52d13a4" }] },
            Events := some { Data := none } } } }

/-- A target type with an `UnmarshalJSON` method of its own, which refuses every
body with the error `ErrInternalServer`; `encoding/json` hands the error of such a
method back as it is. -/
inductive Refuser where
  | mk
  deriving DecidableEq, Repr

/-- The codec of `Refuser`: the decoding calls its `UnmarshalJSON`. -/
def refuserJSON : JSON Refuser where
  Marshal := fun _ => .ok "null"
  Decode := fun _ target => (target, some Error.ErrInternalServer)

/-- The function `urlErrorOp` of `net/http`: the method with its first letter kept
and the rest in lower case, `Get` for the empty method. -/
def urlErrorOp (method : String) : String :=
  match method.data with
  | [] => "Get"
  | c :: cs => String.mk (c :: cs.map Char.toLower)

/-- The error `*url.Error` that `net/http` builds around the cause `err` of a failed
request: its text names the operation and the URL, and `Unwrap` gives `err`. -/
def urlError (req : Request) (err : Error) : Error :=
  Error.wrapped (urlErrorOp req.Method ++ " \"" ++ req.URL ++ "\": " ++ err.message) err

/-- The method `(*http.Client).Do` of `net/http` over a round tripper, as far as its
error contract goes: a response is handed on, and "any returned error will be of
type `*url.Error`". `NewClient` and `NewClientWithUrl` set the field `client` to an
`&http.Client{}`, so the send of every `Client` they build has this form. -/
def netClientDo (roundTrip : Request → Except Error Response) (req : Request) :
    Except Error Response :=
  match roundTrip req with
  | .error err => .error (urlError req err)
  | .ok resp => .ok resp

/-- A document of the account service that decodes to `populated`: it carries a
member the schema does not know (`created_on`), an explicit `false` flag, an empty
`address` array and a `null` event list. -/
def populatedDoc : JVal :=
  .obj [("data", .obj [
    ("type", .str "accounts"), ("id", .str "ad27e265"),
    ("organisation_id", .str "eb0bd6f5"), ("version", .num 0),
    ("created_on", .str "2020-05-10T15:48:14.164Z"),
    ("attributes", .obj [
      ("country", .str "GB"), ("base_currency", .str "GBP"),
      ("account_number", .str "41426819"),
      ("name", .arr [.str "Samantha Holder"]),
      ("alternative_names", .arr [.str "Sam Holder"]),
      ("account_classification", .str "Personal"),
      ("joint_account", .bool true), ("switched", .bool false),
      ("private_identification", .obj [
        ("birth_date", .str "2017-07-23"), ("city", .str "London")]),
      ("organisation_identification", .obj [
        ("identification", .str "123654"),
        ("actors", .arr [.obj [("name", .arr [.str "Jeff Page"]), ("residency", .str "GB")]]),
        ("address", .arr [])]),
      ("status", .str "confirmed")]),
    ("relationships", .obj [
      ("master_account", .obj [
        ("data", .arr [.obj [("type", .str "accounts"), ("id", .str "a52d13a4")]])]),
      ("account_events", .obj [("data", .null)])])])]

/-! ## Theorems -/

open Error in
/-- C1: the status classification of the transport is a total function of the
integer status code: no error on 200..299, `ErrContentNotFound` on 404,
`ErrBadRequest` on 400, `ErrNotAuthorized` on 403 and `ErrInternalServer` on every
other code, among them 409, 500, the 1xx and 3xx codes, zero and the negatives. -/
theorem validateStatusCode_classification (c : http.Client) (s : Int) :
    (c.validateStatusCode s =
      if 200 ≤ s ∧ s ≤ 299 then none
      else if s = 404 then some ErrContentNotFound
      else if s = 400 then some ErrBadRequest
      else if s = 403 then some ErrNotAuthorized
      else some ErrInternalServer) ∧
    (s = 409 ∨ s = 500 ∨ (100 ≤ s ∧ s ≤ 199) ∨ (300 ≤ s ∧ s ≤ 399) ∨ s ≤ 0 →
      c.validateStatusCode s = some ErrInternalServer) := by
  unfold http.Client.validateStatusCode http.StatusOK http.StatusMultipleChoices
    http.StatusNotFound http.StatusBadRequest http.StatusForbidden
  constructor
  · by_cases h : 200 ≤ s ∧ s ≤ 299
    · have h' : 200 ≤ s ∧ s < 300 := ⟨h.1, by omega⟩
      rw [if_pos h, if_pos h']
    · have h' : ¬ (200 ≤ s ∧ s < 300) := fun hh => h ⟨hh.1, by omega⟩
      rw [if_neg h, if_neg h']
  · intro h
    have h1 : ¬ (200 ≤ s ∧ s < 300) := by omega
    have h2 : s ≠ 404 := by omega
    have h3 : s ≠ 400 := by omega
    have h4 : s ≠ 403 := by omega
    rw [if_neg h1, if_neg h2, if_neg h3, if_neg h4]

/-- C2: whenever the transport built the request and `Do` returned a response whose
raw status is 204, `Delete` returns no error, whatever error `Do` returned
alongside that response. -/
theorem Delete_status_no_content (t : httpClient) (ctx : Context) (uuid : String)
    (version : Int) (req : Request) (resp : Response)
    (hreq : t.CreateRequest Empty http.MethodDelete
      (apVersion ++ "/" ++ path ++ "/" ++ uuid ++ "?version=" ++ fmtInt version) none
        = .ok req)
    (hresp : (t.Do Empty ctx req none).resp = some resp)
    (hstatus : resp.StatusCode = 204) :
    (NewAPIClient t).Delete ctx uuid version = none := by
  simp [APIClient.Delete, NewAPIClient, hreq, hresp, hstatus, http.StatusNoContent]

/-- Witness of C2: a transport that answers 204 together with the error
`ErrInternalServer`; `Delete` reports success. -/
theorem Delete_status_no_content_witness :
    (NewAPIClient (fakeHTTPClient.toHttpClient
      { statusCode := 204, err := some Error.ErrInternalServer })).Delete
        Background "u1" 0 = none :=
  Delete_status_no_content
    (fakeHTTPClient.toHttpClient { statusCode := 204, err := some Error.ErrInternalServer })
    Background "u1" 0
    ⟨"DELETE", "v1/organisation/accounts/u1?version=0", "", [], Background⟩
    ⟨204, "", false⟩ rfl rfl rfl

open Error in
/-- C3: whenever the transport built the request and `Do` returned a response whose
raw status is 409, `Delete` returns `ErrVersionConflict`, whatever error `Do`
returned alongside; and `ErrVersionConflict` differs from each of the four errors
of the transport. -/
theorem Delete_status_conflict (t : httpClient) (ctx : Context) (uuid : String)
    (version : Int) (req : Request) (resp : Response)
    (hreq : t.CreateRequest Empty http.MethodDelete
      (apVersion ++ "/" ++ path ++ "/" ++ uuid ++ "?version=" ++ fmtInt version) none
        = .ok req)
    (hresp : (t.Do Empty ctx req none).resp = some resp)
    (hstatus : resp.StatusCode = 409) :
    (NewAPIClient t).Delete ctx uuid version = some ErrVersionConflict ∧
      ErrVersionConflict ≠ ErrContentNotFound ∧ ErrVersionConflict ≠ ErrBadRequest ∧
      ErrVersionConflict ≠ ErrNotAuthorized ∧ ErrVersionConflict ≠ ErrInternalServer := by
  refine ⟨?_, by decide, by decide, by decide, by decide⟩
  simp [APIClient.Delete, NewAPIClient, hreq, hresp, hstatus, http.StatusNoContent,
    http.StatusConflict]

/-- Witness of C3: a transport that answers 409 together with `ErrInternalServer`,
for the version 99 of `u1`. -/
theorem Delete_status_conflict_witness :
    (NewAPIClient (fakeHTTPClient.toHttpClient
      { statusCode := 409, err := some Error.ErrInternalServer })).Delete
        Background "u1" 99 = some Error.ErrVersionConflict :=
  (Delete_status_conflict
    (fakeHTTPClient.toHttpClient { statusCode := 409, err := some Error.ErrInternalServer })
    Background "u1" 99
    ⟨"DELETE", "v1/organisation/accounts/u1?version=99", "", [], Background⟩
    ⟨409, "", false⟩ rfl rfl rfl).1

/-- C4: whenever the transport built the request and the response of `Do` is
absent or has a raw status other than 204 and 409, `Delete` returns exactly the
error `Do` returned: the same error when there is one, none when there is none. -/
theorem Delete_propagates (t : httpClient) (ctx : Context) (uuid : String)
    (version : Int) (req : Request)
    (hreq : t.CreateRequest Empty http.MethodDelete
      (apVersion ++ "/" ++ path ++ "/" ++ uuid ++ "?version=" ++ fmtInt version) none
        = .ok req)
    (hresp : ∀ resp, (t.Do Empty ctx req none).resp = some resp →
      resp.StatusCode ≠ 204 ∧ resp.StatusCode ≠ 409) :
    (NewAPIClient t).Delete ctx uuid version = (t.Do Empty ctx req none).err := by
  simp only [APIClient.Delete, NewAPIClient, hreq]
  cases h : (t.Do Empty ctx req none).resp with
  | none => rfl
  | some resp =>
    obtain ⟨h204, h409⟩ := hresp resp h
    simp [http.StatusNoContent, http.StatusConflict, h204, h409]

/-- Witness of C4: the transport of `TestDeleteAccountReturnsNotFoundErrorOnStatusNotFound`,
which answers the status 0 together with `ErrContentNotFound`. -/
theorem Delete_propagates_witness :
    (NewAPIClient (fakeHTTPClient.toHttpClient
      { err := some Error.ErrContentNotFound })).Delete Background "unknown" 0
        = some Error.ErrContentNotFound :=
  Delete_propagates
    (fakeHTTPClient.toHttpClient { err := some Error.ErrContentNotFound })
    Background "unknown" 0
    ⟨"DELETE", "v1/organisation/accounts/unknown?version=0", "", [], Background⟩
    rfl
    (fun resp h => by
      have hr : resp = ⟨0, "", false⟩ := (Option.some.inj h).symm
      subst hr
      exact ⟨by decide, by decide⟩)

open Error in
/-- C5: with the account client composed over the transport of package http, for
every id and version whose request is built: if the HTTP send yields status 204
`Delete` returns no error; if it yields 409 `Delete` returns `ErrVersionConflict`,
although the transport classifies 409 as `ErrInternalServer`; if it yields 404
`Delete` returns `ErrContentNotFound`. -/
theorem Delete_over_Client (c : http.Client) (ctx : Context) (uuid : String)
    (version : Int) (req : Request) (resp : Response)
    (hreq : c.CreateRequest Empty http.MethodDelete
      (apVersion ++ "/" ++ path ++ "/" ++ uuid ++ "?version=" ++ fmtInt version) none
        = .ok req)
    (hsend : c.client req = .ok resp) :
    (resp.StatusCode = 204 → (NewAPIClient c.toHttpClient).Delete ctx uuid version = none) ∧
    (resp.StatusCode = 409 →
      (NewAPIClient c.toHttpClient).Delete ctx uuid version = some ErrVersionConflict ∧
      (c.Do Empty ctx req none).err = some ErrInternalServer) ∧
    (resp.StatusCode = 404 →
      (NewAPIClient c.toHttpClient).Delete ctx uuid version = some ErrContentNotFound) := by
  refine ⟨fun h => ?_, fun h => ⟨?_, ?_⟩, fun h => ?_⟩ <;>
    simp [APIClient.Delete, NewAPIClient, http.Client.toHttpClient, hreq, http.Client.Do,
      hsend, http.Client.validateStatusCode, h, http.StatusOK, http.StatusMultipleChoices,
      http.StatusNotFound, http.StatusBadRequest, http.StatusForbidden,
      http.StatusNoContent, http.StatusConflict, Response.Close]

/-- Witness of C5: servers answering 204, 409 and 404 to the delete of `u1` at
version 0. -/
theorem Delete_over_Client_witness :
    (NewAPIClient (serverClient ⟨204, "", false⟩).toHttpClient).Delete Background "u1" 0
      = none ∧
    (NewAPIClient (serverClient ⟨409, "", false⟩).toHttpClient).Delete Background "u1" 0
      = some Error.ErrVersionConflict ∧
    (NewAPIClient (serverClient ⟨404, "", false⟩).toHttpClient).Delete Background "u1" 0
      = some Error.ErrContentNotFound :=
  ⟨(Delete_over_Client (serverClient ⟨204, "", false⟩) Background "u1" 0
      ⟨"DELETE", "http://accountapi:8080/v1/organisation/accounts/u1?version=0", "", [],
        Background⟩ ⟨204, "", false⟩ rfl rfl).1 rfl,
   ((Delete_over_Client (serverClient ⟨409, "", false⟩) Background "u1" 0
      ⟨"DELETE", "http://accountapi:8080/v1/organisation/accounts/u1?version=0", "", [],
        Background⟩ ⟨409, "", false⟩ rfl rfl).2.1 rfl).1,
   (Delete_over_Client (serverClient ⟨404, "", false⟩) Background "u1" 0
      ⟨"DELETE", "http://accountapi:8080/v1/organisation/accounts/u1?version=0", "", [],
        Background⟩ ⟨404, "", false⟩ rfl rfl).2.2 rfl⟩

/-- C6: whenever the transport built the request, `Do` reported no error and the
response status is any value other than 201, `Create` returns the error
`ErrInternalServer` and a nil account. -/
theorem Create_status_not_created [JSON Account] [JSON (Option Account)] (t : httpClient)
    (ctx : Context) (account : Option Account) (req : Request) (resp : Response)
    (hreq : t.CreateRequest (Option Account) http.MethodPost (apVersion ++ "/" ++ path)
      (some account) = .ok req)
    (herr : (t.Do Account ctx req (some {})).err = none)
    (hresp : (t.Do Account ctx req (some {})).resp = some resp)
    (hstatus : resp.StatusCode ≠ 201) :
    (NewAPIClient t).Create ctx account = .ret (none, some Error.ErrInternalServer) := by
  simp [APIClient.Create, NewAPIClient, hreq, herr, hresp, hstatus, http.StatusCreated]

/-- Witness of C6: the transport of
`TestCreateAccountReturnsInternalServerErrorOnNonStatusAccepted`, which answers the
status 0 and no error. -/
theorem Create_status_not_created_witness :
    @APIClient.Create accountJSON accountPtrJSON
      (NewAPIClient (fakeHTTPClient.toHttpClient {})) Background (some echoed)
        = .ret (none, some Error.ErrInternalServer) :=
  @Create_status_not_created accountJSON
    accountPtrJSON (fakeHTTPClient.toHttpClient {}) Background
    (some echoed) ⟨"POST", "v1/organisation/accounts", "", [], Background⟩ ⟨0, "", false⟩
    rfl rfl rfl (by decide)

/-- C7: whenever the transport built the request, `Do` reported no error, the
response status is 201 and `Do` stored the decoded body `b` in the target, `Create`
returns no error and the account `b`, whatever the input account was. -/
theorem Create_status_created [JSON Account] [JSON (Option Account)] (t : httpClient)
    (ctx : Context) (account : Option Account) (req : Request) (resp : Response)
    (b : Account)
    (hreq : t.CreateRequest (Option Account) http.MethodPost (apVersion ++ "/" ++ path)
      (some account) = .ok req)
    (herr : (t.Do Account ctx req (some {})).err = none)
    (hresp : (t.Do Account ctx req (some {})).resp = some resp)
    (hstatus : resp.StatusCode = 201)
    (hbody : (t.Do Account ctx req (some {})).written = some b) :
    (NewAPIClient t).Create ctx account = .ret (some b, none) := by
  simp [APIClient.Create, NewAPIClient, hreq, herr, hresp, hstatus, hbody,
    http.StatusCreated]

/-- Witness of C7: a transport that answers 201 with a body decoding to the
account `u1`, while the input is the zero account. -/
theorem Create_status_created_witness :
    @APIClient.Create accountJSON accountPtrJSON
      (NewAPIClient (fakeHTTPClient.toHttpClient { statusCode := 201, body := some echoedText }))
      Background (some {}) = .ret (some echoed, none) ∧ echoed ≠ {} :=
  ⟨@Create_status_created accountJSON
    accountPtrJSON
    (fakeHTTPClient.toHttpClient { statusCode := 201, body := some echoedText }) Background
    (some {}) ⟨"POST", "v1/organisation/accounts", "", [], Background⟩ ⟨201, echoedText, false⟩
    echoed rfl rfl rfl rfl rfl, by decide⟩

/-- C9: whenever the transport built the request and `Do` returned a non-nil error
`e`, `Fetch` returns a nil account together with exactly `e`, and `List` returns a
nil list together with exactly `e`. -/
theorem Fetch_List_propagate [JSON Account] [JSON AccountList] (t : httpClient)
    (ctx : Context) (uuid : String) (p : Pagination) :
    (∀ (req : Request) (e : Error),
      t.CreateRequest Empty http.MethodGet (apVersion ++ "/" ++ path ++ "/" ++ uuid) none
        = .ok req →
      (t.Do Account ctx req (some {})).err = some e →
      (NewAPIClient t).Fetch ctx uuid = (none, some e)) ∧
    (∀ (req : Request) (e : Error),
      t.CreateRequest Empty http.MethodGet
        (apVersion ++ "/" ++ path ++ "?" ++ p.QueryString) none = .ok req →
      (t.Do AccountList ctx req (some {})).err = some e →
      (NewAPIClient t).List ctx (some p) = .ret (none, some e)) := by
  constructor
  · intro req e hreq herr
    simp [APIClient.Fetch, NewAPIClient, hreq, herr]
  · intro req e hreq herr
    simp [APIClient.List, NewAPIClient, hreq, herr]

/-- Witness of C9: the transport of `TestFetchAccountReturnsErrorOnNotFoundStatusCode`
and `TestListAccountsReturnAnErrorOnUnexpectedStatusCode`, which answers the error
`ErrContentNotFound`. -/
theorem Fetch_List_propagate_witness :
    @APIClient.Fetch accountJSON
      (NewAPIClient (fakeHTTPClient.toHttpClient { err := some Error.ErrContentNotFound }))
      Background "u1" = (none, some Error.ErrContentNotFound) ∧
    @APIClient.List accountListJSON
      (NewAPIClient (fakeHTTPClient.toHttpClient { err := some Error.ErrContentNotFound }))
      Background (some (NewPagination 0 10)) = .ret (none, some Error.ErrContentNotFound) :=
  ⟨(@Fetch_List_propagate accountJSON accountListJSON
      (fakeHTTPClient.toHttpClient { err := some Error.ErrContentNotFound })
      Background "u1" (NewPagination 0 10)).1
      ⟨"GET", "v1/organisation/accounts/u1", "", [], Background⟩ Error.ErrContentNotFound
      rfl rfl,
   (@Fetch_List_propagate accountJSON accountListJSON
      (fakeHTTPClient.toHttpClient { err := some Error.ErrContentNotFound })
      Background "u1" (NewPagination 0 10)).2
      ⟨"GET", "v1/organisation/accounts?page[number]=0&page[size]=10", "", [], Background⟩
      Error.ErrContentNotFound rfl rfl⟩

open Error in
/-- C8 fails on the code: when `Do` returns a classification error `e`, `Create`
returns a nil account and `fmt.Errorf("... %v", e)`, an error that holds the text
of `e` and does not match `e` under `errors.Is`. Over the transport of package
http, a server answering 404 to a create yields an error that is not
`ErrContentNotFound`, while `Fetch` on the same server yields `ErrContentNotFound`
itself. -/
theorem Create_transport_error_not_matchable :
    (∀ [JSON Account] [JSON (Option Account)] (t : httpClient) (ctx : Context)
      (account : Option Account) (req : Request) (e : Error),
      t.CreateRequest (Option Account) http.MethodPost (apVersion ++ "/" ++ path)
        (some account) = .ok req →
      (t.Do Account ctx req (some {})).err = some e →
      e = ErrContentNotFound ∨ e = ErrBadRequest ∨ e = ErrNotAuthorized ∨
        e = ErrInternalServer →
      (NewAPIClient t).Create ctx account
          = .ret (none, some (Errorf "unexpected error executing http request, error " e)) ∧
        (Errorf "unexpected error executing http request, error " e).Is e = false) ∧
    @APIClient.Create accountJSON accountPtrJSON
      (NewAPIClient (serverClient ⟨404, "", false⟩).toHttpClient) Background (some echoed)
        = .ret (none, some (errorString
            "unexpected error executing http request, error content not found")) ∧
    (errorString "unexpected error executing http request, error content not found").Is
      ErrContentNotFound = false ∧
    @APIClient.Fetch accountJSON
      (NewAPIClient (serverClient ⟨404, "", false⟩).toHttpClient) Background "u1"
        = (none, some ErrContentNotFound) := by
  refine ⟨?_, rfl, rfl, rfl⟩
  intro jA jP t ctx account req e hreq herr he
  constructor
  · simp [APIClient.Create, NewAPIClient, hreq, herr]
  · rcases he with h | h | h | h <;> subst h <;> rfl

/-- C10 fails on the code: `Do` calls `req.WithContext(ctx)` and drops the copy, so
the request handed to the HTTP send is `req` with the context it already had, and
the result of `Do` does not depend on `ctx`. With a send that honours the context
of the request it is given, a request built by `CreateRequest` and an already
cancelled `ctx`, `Do` performs the send and returns the 200 response with no
error; the copy carrying `ctx` would have failed with `context.Canceled`. -/
theorem Do_drops_context :
    (∀ (c : http.Client) (α : Type) [JSON α] (ctx ctx' : Context) (req : Request)
      (v : Option α), c.Do α ctx req v = c.Do α ctx' req v) ∧
    (serverClient ⟨200, "", false⟩).CreateRequest Empty http.MethodGet "foo" none
      = .ok ⟨"GET", "http://accountapi:8080/foo", "", [], Background⟩ ∧
    ((serverClient ⟨200, "", false⟩).Do Empty ⟨some Canceled⟩
      ⟨"GET", "http://accountapi:8080/foo", "", [], Background⟩ none).resp
        = some ⟨200, "", true⟩ ∧
    ((serverClient ⟨200, "", false⟩).Do Empty ⟨some Canceled⟩
      ⟨"GET", "http://accountapi:8080/foo", "", [], Background⟩ none).err = none ∧
    (serverClient ⟨200, "", false⟩).client
      (Request.WithContext ⟨"GET", "http://accountapi:8080/foo", "", [], Background⟩
        ⟨some Canceled⟩) = .error Canceled := by
  refine ⟨?_, rfl, rfl, rfl, rfl⟩
  intro c α j ctx ctx' req v
  rfl

/-- C11 fails on the code: `Do` registers the deferred `Body.Close()` after the
return of the status check, so a response whose status is outside 200..299 comes
back with its body still open; the body is closed on the three paths below the
check (no target, decoded target, decode failure). A server answering 404 leaves
the body open. -/
theorem Do_leaves_body_open_on_status_error :
    (∀ (c : http.Client) (α : Type) [JSON α] (ctx : Context) (req : Request)
      (v : Option α) (resp : Response) (e : Error),
      c.client req = .ok resp → c.validateStatusCode resp.StatusCode = some e →
      (c.Do α ctx req v).resp = some resp) ∧
    (∀ (c : http.Client) (α : Type) [JSON α] (ctx : Context) (req : Request)
      (v : Option α) (resp : Response),
      c.client req = .ok resp → c.validateStatusCode resp.StatusCode = none →
      (c.Do α ctx req v).resp = some resp.Close) ∧
    ((serverClient ⟨404, "", false⟩).Do Empty Background
      ⟨"GET", "http://accountapi:8080/v1/organisation/accounts/u1", "", [], Background⟩
      none).resp = some ⟨404, "", false⟩ ∧
    ((serverClient ⟨404, "", false⟩).Do Empty Background
      ⟨"GET", "http://accountapi:8080/v1/organisation/accounts/u1", "", [], Background⟩
      none).err = some Error.ErrContentNotFound := by
  refine ⟨?_, ?_, rfl, rfl⟩
  · intro c α _ ctx req v resp e hsend hstatus
    simp [http.Client.Do, hsend, hstatus]
  · intro c α _ ctx req v resp hsend hstatus
    simp only [http.Client.Do, hsend, hstatus]
    cases v with
    | none => rfl
    | some target =>
      rcases hd : JSON.Decode resp.Body target with ⟨b, _ | e⟩ <;> simp [hd]

/-- C12 (as stated) fails on the code: `Do` hands back whatever error the decoder
returns. A server answers 200 and the target has an `UnmarshalJSON` that refuses
the body with `ErrInternalServer`: the status is 2xx, the body is not decoded, and
the error `Do` returns is `ErrInternalServer`, one of the four classification
errors. -/
theorem Do_returns_decoder_sentinel :
    @http.Client.Do (serverClient ⟨200, "7", false⟩) Refuser refuserJSON Background
      ⟨"GET", "http://accountapi:8080/foo", "", [], Background⟩ (some Refuser.mk)
      = ⟨some ⟨200, "7", true⟩, some Error.ErrInternalServer, some Refuser.mk⟩ ∧
    (serverClient ⟨200, "7", false⟩).validateStatusCode 200 = none ∧
    (@http.Client.Do (serverClient ⟨200, "7", false⟩) Refuser refuserJSON Background
      ⟨"GET", "http://accountapi:8080/foo", "", [], Background⟩ (some Refuser.mk)).err
      = some Error.ErrInternalServer :=
  ⟨rfl, by decide, rfl⟩

/-- C12 (amended): for a response with a 2xx status and a non-nil target: when the
body decodes, `Do` stores the decoded value in the target and returns the response
with no error; when it does not, `Do` returns the response together with the error
of the decoder itself, unchanged. With a nil target `Do` returns the response and
no error without consulting the decoder. -/
theorem Do_decodes_on_success (α : Type) [JSON α] (c : http.Client) (ctx : Context)
    (req : Request) (resp : Response) (target : α)
    (hsend : c.client req = .ok resp)
    (h2xx : 200 ≤ resp.StatusCode ∧ resp.StatusCode ≤ 299) :
    (∀ b, JSON.Decode resp.Body target = (b, none) →
      c.Do α ctx req (some target) = ⟨some resp.Close, none, some b⟩) ∧
    (∀ b e, JSON.Decode resp.Body target = (b, some e) →
      c.Do α ctx req (some target) = ⟨some resp.Close, some e, some b⟩) ∧
    c.Do α ctx req none = ⟨some resp.Close, none, none⟩ := by
  have hv : c.validateStatusCode resp.StatusCode = none := by
    have h' : 200 ≤ resp.StatusCode ∧ resp.StatusCode < 300 := ⟨h2xx.1, by omega⟩
    simp [http.Client.validateStatusCode, http.StatusOK, http.StatusMultipleChoices, h']
  refine ⟨?_, ?_, ?_⟩
  · intro b hb
    simp [http.Client.Do, hsend, hv, hb]
  · intro b e hb
    simp [http.Client.Do, hsend, hv, hb]
  · simp [http.Client.Do, hsend, hv]

/-- Witness of C12 (amended): a server answering 200 with the document of the
account `u1`, decoded into a zero account; and the same server with a body that
is no document, whose decoding error comes back unchanged. -/
theorem Do_decodes_on_success_witness :
    @http.Client.Do (serverClient ⟨200, echoedText, false⟩) Account accountJSON Background
      ⟨"GET", "http://accountapi:8080/v1/organisation/accounts/u1", "", [], Background⟩
      (some {}) = ⟨some ⟨200, echoedText, true⟩, none, some echoed⟩ ∧
    @http.Client.Do (serverClient ⟨200, "oops", false⟩) Account accountJSON Background
      ⟨"GET", "http://accountapi:8080/v1/organisation/accounts/u1", "", [], Background⟩
      (some {}) = ⟨some ⟨200, "oops", true⟩,
        some (Error.errorString "invalid character"), some {}⟩ :=
  ⟨(@Do_decodes_on_success Account accountJSON (serverClient ⟨200, echoedText, false⟩)
      Background
      ⟨"GET", "http://accountapi:8080/v1/organisation/accounts/u1", "", [], Background⟩
      ⟨200, echoedText, false⟩ {} rfl (by decide)).1 echoed rfl,
   (@Do_decodes_on_success Account accountJSON (serverClient ⟨200, "oops", false⟩)
      Background
      ⟨"GET", "http://accountapi:8080/v1/organisation/accounts/u1", "", [], Background⟩
      ⟨200, "oops", false⟩ {} rfl (by decide)).2.1 {}
      (Error.errorString "invalid character") rfl⟩

/-- C13 (as stated) fails on the code: for the method `bad method`, which is not an
HTTP token, and the resolvable path `foo`, `http.NewRequest` refuses the method and
`CreateRequest` returns that error and no request. -/
theorem CreateRequest_refuses_invalid_method :
    (strictClient ⟨200, "", false⟩).baseURL "foo" = .ok "http://accountapi:8080/foo" ∧
    (strictClient ⟨200, "", false⟩).CreateRequest Empty "bad method" "foo" none
      = .error (Error.errorString "net/http: invalid method \"bad method\"") ∧
    ¬ ∃ req, (strictClient ⟨200, "", false⟩).CreateRequest Empty "bad method" "foo" none
      = .ok req := by
  have h : (strictClient ⟨200, "", false⟩).CreateRequest Empty "bad method" "foo" none
      = .error (Error.errorString "net/http: invalid method \"bad method\"") := rfl
  refine ⟨rfl, h, ?_⟩
  rintro ⟨req, hreq⟩
  rw [h] at hreq
  cases hreq

/-- C13 (amended): for every method and path such that the path resolves against the
base URL and `http.NewRequest` accepts the method and the resolved URL: a non-nil
body that has a JSON encoding gives a request whose body is exactly that encoding
and whose only header is `Content-Type: application/vnd.api+json`; a nil body gives
a request with an empty body and no header. -/
theorem CreateRequest_body_and_content_type (β : Type) [JSON β] (c : http.Client)
    (method url uri : String)
    (hurl : c.baseURL url = .ok uri)
    (hreq : c.reqErr method uri = none) :
    (∀ (b : β) (buf : String), JSON.Marshal b = .ok buf →
      c.CreateRequest β method url (some b) =
        .ok { Method := if method = "" then "GET" else method, URL := uri, Body := buf,
              Header := [("Content-Type", "application/vnd.api+json")],
              ctx := Background }) ∧
    c.CreateRequest β method url none =
      .ok { Method := if method = "" then "GET" else method, URL := uri, Body := "",
            Header := [], ctx := Background } ∧
    HeaderGet [("Content-Type", "application/vnd.api+json")] "Content-Type"
      = "application/vnd.api+json" ∧
    HeaderGet [] "Content-Type" = "" := by
  refine ⟨?_, ?_, by decide, by decide⟩
  · intro b buf hbuf
    simp [http.Client.CreateRequest, hurl, hbuf, http.NewRequest, hreq, HeaderSet,
      http.jsonContentType]
  · simp [http.Client.CreateRequest, hurl, http.NewRequest, hreq]

/-- Witness of C13 (amended): the POST of the account `u1` to the collection path. -/
theorem CreateRequest_body_and_content_type_witness :
    @http.Client.CreateRequest (strictClient ⟨201, "", false⟩) (Option Account)
      accountPtrJSON "POST" "v1/organisation/accounts" (some (some echoed))
      = .ok ⟨"POST", "http://accountapi:8080/v1/organisation/accounts", echoedText,
          [("Content-Type", "application/vnd.api+json")], Background⟩ :=
  (@CreateRequest_body_and_content_type (Option Account)
    accountPtrJSON (strictClient ⟨201, "", false⟩) "POST" "v1/organisation/accounts"
    "http://accountapi:8080/v1/organisation/accounts" rfl rfl).1
    (some echoed) echoedText rfl

/-- The verb `%d` renders an integer as its decimal numeral, with a leading `-`
for a negative one: `fmtInt` agrees with the decimal rendering `toString`. -/
theorem fmtInt_eq_toString (i : Int) : fmtInt i = toString i := by
  cases i with
  | ofNat m =>
    have h : ¬ ((Int.ofNat m) < 0) := by simp
    simp only [fmtInt, h, if_false]
    rfl
  | negSucc m =>
    have h : (Int.negSucc m) < 0 := Int.negSucc_lt_zero m
    simp only [fmtInt, h, if_true]
    rfl

/-- C14: for every pair of integers, `Pagination(page, size).QueryString()` is
`page[number]=` followed by the decimal rendering of `page`, then `&page[size]=`
followed by the decimal rendering of `size`, brackets unescaped and no clamping:
`(1, 10)` renders `page[number]=1&page[size]=10`, and zero and negative values are
rendered as they are. -/
theorem QueryString_format (page size : Int) :
    (NewPagination page size).QueryString
        = "page[number]=" ++ toString page ++ "&page[size]=" ++ toString size ∧
    (NewPagination 1 10).QueryString = "page[number]=1&page[size]=10" ∧
    (NewPagination 0 (-5)).QueryString = "page[number]=0&page[size]=-5" := by
  refine ⟨?_, by decide, by decide⟩
  simp [Pagination.QueryString, NewPagination, fmtInt_eq_toString]

/-- The collection path, and the prefixes of the single-resource and list paths. -/
theorem uri_prefixes :
    apVersion ++ "/" ++ path = "v1/organisation/accounts" ∧
    apVersion ++ "/" ++ path ++ "/" = "v1/organisation/accounts/" ∧
    apVersion ++ "/" ++ path ++ "?" = "v1/organisation/accounts?" := by
  decide

/-- C15: each operation reaches the transport through one request only, built with
these arguments: `Create` with `POST`, `v1/organisation/accounts` and the account
as body; `Fetch` with `GET`, `v1/organisation/accounts/<id>` and a nil body;
`List` with `GET`, `v1/organisation/accounts?<query string>` and a nil body;
`Delete` with `DELETE`, `v1/organisation/accounts/<id>?version=<decimal version>`
and a nil body. Two transports that answer that one `CreateRequest` call alike,
and execute the request it yields alike, give the same result; and when that call
fails, the operation fails with its error. -/
theorem operations_build_one_request [JSON Account] [JSON (Option Account)]
    [JSON AccountList] (t t' : httpClient) (ctx : Context) (account : Option Account)
    (uuid : String) (version : Int) (p : Pagination) :
    ((t.CreateRequest (Option Account) "POST" "v1/organisation/accounts" (some account)
        = t'.CreateRequest (Option Account) "POST" "v1/organisation/accounts" (some account) →
      (∀ req, t.CreateRequest (Option Account) "POST" "v1/organisation/accounts"
          (some account) = .ok req →
        t.Do Account ctx req (some {}) = t'.Do Account ctx req (some {})) →
      (NewAPIClient t).Create ctx account = (NewAPIClient t').Create ctx account) ∧
     (∀ e, t.CreateRequest (Option Account) "POST" "v1/organisation/accounts" (some account)
        = .error e →
      (NewAPIClient t).Create ctx account
        = .ret (none, some (Errorf "unexpected error creating request, error " e)))) ∧
    ((t.CreateRequest Empty "GET" ("v1/organisation/accounts/" ++ uuid) none
        = t'.CreateRequest Empty "GET" ("v1/organisation/accounts/" ++ uuid) none →
      (∀ req, t.CreateRequest Empty "GET" ("v1/organisation/accounts/" ++ uuid) none
          = .ok req →
        t.Do Account ctx req (some {}) = t'.Do Account ctx req (some {})) →
      (NewAPIClient t).Fetch ctx uuid = (NewAPIClient t').Fetch ctx uuid) ∧
     (∀ e, t.CreateRequest Empty "GET" ("v1/organisation/accounts/" ++ uuid) none
        = .error e →
      (NewAPIClient t).Fetch ctx uuid = (none, some e))) ∧
    ((t.CreateRequest Empty "GET" ("v1/organisation/accounts?" ++ p.QueryString) none
        = t'.CreateRequest Empty "GET" ("v1/organisation/accounts?" ++ p.QueryString) none →
      (∀ req, t.CreateRequest Empty "GET" ("v1/organisation/accounts?" ++ p.QueryString)
          none = .ok req →
        t.Do AccountList ctx req (some {}) = t'.Do AccountList ctx req (some {})) →
      (NewAPIClient t).List ctx (some p) = (NewAPIClient t').List ctx (some p)) ∧
     (∀ e, t.CreateRequest Empty "GET" ("v1/organisation/accounts?" ++ p.QueryString) none
        = .error e →
      (NewAPIClient t).List ctx (some p) = .ret (none, some e))) ∧
    ((t.CreateRequest Empty "DELETE"
          ("v1/organisation/accounts/" ++ uuid ++ "?version=" ++ toString version) none
        = t'.CreateRequest Empty "DELETE"
          ("v1/organisation/accounts/" ++ uuid ++ "?version=" ++ toString version) none →
      (∀ req, t.CreateRequest Empty "DELETE"
          ("v1/organisation/accounts/" ++ uuid ++ "?version=" ++ toString version) none
          = .ok req →
        t.Do Empty ctx req none = t'.Do Empty ctx req none) →
      (NewAPIClient t).Delete ctx uuid version = (NewAPIClient t').Delete ctx uuid version) ∧
     (∀ e, t.CreateRequest Empty "DELETE"
          ("v1/organisation/accounts/" ++ uuid ++ "?version=" ++ toString version) none
        = .error e →
      (NewAPIClient t).Delete ctx uuid version = some e)) := by
  obtain ⟨h1, -, -⟩ := uri_prefixes
  have h2 : "v1/organisation/accounts" ++ "/" = "v1/organisation/accounts/" := by decide
  have h3 : "v1/organisation/accounts" ++ "?" = "v1/organisation/accounts?" := by decide
  simp only [APIClient.Create, APIClient.Fetch, APIClient.List, APIClient.Delete,
    NewAPIClient, h1, h2, h3, fmtInt_eq_toString, http.MethodPost, http.MethodGet,
    http.MethodDelete]
  refine ⟨⟨?_, ?_⟩, ⟨?_, ?_⟩, ⟨?_, ?_⟩, ⟨?_, ?_⟩⟩
  · intro hC hD
    rw [← hC]
    cases hr : t.CreateRequest (Option Account) "POST" "v1/organisation/accounts"
        (some account) with
    | error e => rfl
    | ok req => simp only [hD req hr]
  · intro e he
    rw [he]
  · intro hC hD
    rw [← hC]
    cases hr : t.CreateRequest Empty "GET" ("v1/organisation/accounts/" ++ uuid) none with
    | error e => rfl
    | ok req => simp only [hD req hr]
  · intro e he
    rw [he]
  · intro hC hD
    rw [← hC]
    cases hr : t.CreateRequest Empty "GET"
        ("v1/organisation/accounts?" ++ p.QueryString) none with
    | error e => rfl
    | ok req => simp only [hD req hr]
  · intro e he
    rw [he]
  · intro hC hD
    rw [← hC]
    cases hr : t.CreateRequest Empty "DELETE"
        ("v1/organisation/accounts/" ++ uuid ++ "?version=" ++ toString version) none with
    | error e => rfl
    | ok req => simp only [hD req hr]
  · intro e he
    rw [he]

/-- Witness of C15: a transport that refuses every request but the DELETE of
`v1/organisation/accounts/u1?version=7` deletes `u1` at version 7 as the
unrestricted transport does, and reports its refusal for version 8. -/
theorem operations_build_one_request_witness :
    (NewAPIClient (fakeHTTPClient.toHttpClient { statusCode := 204 })).Delete
        Background "u1" 7
      = (NewAPIClient (onlyRequest (fakeHTTPClient.toHttpClient { statusCode := 204 })
          "DELETE" "v1/organisation/accounts/u1?version=7")).Delete Background "u1" 7 ∧
    (NewAPIClient (onlyRequest (fakeHTTPClient.toHttpClient { statusCode := 204 })
        "DELETE" "v1/organisation/accounts/u1?version=7")).Delete Background "u1" 7 = none ∧
    (NewAPIClient (onlyRequest (fakeHTTPClient.toHttpClient { statusCode := 204 })
        "DELETE" "v1/organisation/accounts/u1?version=7")).Delete Background "u1" 8
      = some (Error.errorString "unexpected request") :=
  ⟨(@operations_build_one_request accountJSON accountPtrJSON accountListJSON
      (fakeHTTPClient.toHttpClient { statusCode := 204 })
      (onlyRequest (fakeHTTPClient.toHttpClient { statusCode := 204 })
        "DELETE" "v1/organisation/accounts/u1?version=7")
      Background none "u1" 7 ⟨0, 10⟩).2.2.2.1 rfl (fun _ _ => rfl), rfl, rfl⟩

/-- C18: with the account client composed over the transport of package http, for
every id, version and status produced by a successful HTTP send, `Delete` returns
no error exactly when the status lies in 200..299; so 200 and 201 are reported as
a successful delete like 204, and every status outside 2xx gives an error. -/
theorem Delete_over_Client_ok_iff_2xx (c : http.Client) (ctx : Context) (uuid : String)
    (version : Int) (req : Request) (resp : Response)
    (hreq : c.CreateRequest Empty http.MethodDelete
      (apVersion ++ "/" ++ path ++ "/" ++ uuid ++ "?version=" ++ fmtInt version) none
        = .ok req)
    (hsend : c.client req = .ok resp) :
    (NewAPIClient c.toHttpClient).Delete ctx uuid version = none ↔
      200 ≤ resp.StatusCode ∧ resp.StatusCode ≤ 299 := by
  by_cases h2 : 200 ≤ resp.StatusCode ∧ resp.StatusCode ≤ 299
  · have h2' : 200 ≤ resp.StatusCode ∧ resp.StatusCode < 300 := ⟨h2.1, by omega⟩
    have hv : c.validateStatusCode resp.StatusCode = none := by
      simp [http.Client.validateStatusCode, http.StatusOK, http.StatusMultipleChoices, h2']
    have hDo : c.Do Empty ctx req none = ⟨some resp.Close, none, none⟩ := by
      simp [http.Client.Do, hsend, hv]
    have h409 : resp.StatusCode ≠ 409 := by omega
    simp [APIClient.Delete, NewAPIClient, http.Client.toHttpClient, hreq, hDo, h2,
      Response.Close, http.StatusConflict, h409]
  · have h2' : ¬ (200 ≤ resp.StatusCode ∧ resp.StatusCode < 300) :=
      fun h => h2 ⟨h.1, by omega⟩
    have hv : ∃ e, c.validateStatusCode resp.StatusCode = some e := by
      unfold http.Client.validateStatusCode http.StatusOK http.StatusMultipleChoices
      rw [if_neg h2']
      split_ifs <;> exact ⟨_, rfl⟩
    obtain ⟨e, hv⟩ := hv
    have hDo : c.Do Empty ctx req none = ⟨some resp, some e, none⟩ := by
      simp [http.Client.Do, hsend, hv]
    have h204 : resp.StatusCode ≠ 204 := by omega
    simp only [APIClient.Delete, NewAPIClient, http.Client.toHttpClient, hreq, hDo,
      http.StatusNoContent, http.StatusConflict, if_neg h204, h2, iff_false]
    split_ifs <;> simp

/-- Witness of C18: servers answering 200, 201 and 500 to the delete of `u1` at
version 0. -/
theorem Delete_over_Client_ok_iff_2xx_witness :
    (NewAPIClient (serverClient ⟨200, "", false⟩).toHttpClient).Delete Background "u1" 0
      = none ∧
    (NewAPIClient (serverClient ⟨201, "", false⟩).toHttpClient).Delete Background "u1" 0
      = none ∧
    (NewAPIClient (serverClient ⟨500, "", false⟩).toHttpClient).Delete Background "u1" 0
      ≠ none :=
  ⟨(Delete_over_Client_ok_iff_2xx (serverClient ⟨200, "", false⟩) Background "u1" 0
      ⟨"DELETE", "http://accountapi:8080/v1/organisation/accounts/u1?version=0", "", [],
        Background⟩ ⟨200, "", false⟩ rfl rfl).2 (by decide),
   (Delete_over_Client_ok_iff_2xx (serverClient ⟨201, "", false⟩) Background "u1" 0
      ⟨"DELETE", "http://accountapi:8080/v1/organisation/accounts/u1?version=0", "", [],
        Background⟩ ⟨201, "", false⟩ rfl rfl).2 (by decide),
   fun h => absurd ((Delete_over_Client_ok_iff_2xx (serverClient ⟨500, "", false⟩)
      Background "u1" 0
      ⟨"DELETE", "http://accountapi:8080/v1/organisation/accounts/u1?version=0", "", [],
        Background⟩ ⟨500, "", false⟩ rfl rfl).1 h) (by decide)⟩

/-- The response of `Do` is nil exactly when the HTTP send failed. -/
theorem Do_resp_none_iff (c : http.Client) (α : Type) [JSON α] (ctx : Context)
    (req : Request) (v : Option α) :
    (c.Do α ctx req v).resp = none ↔ ∃ e, c.client req = .error e := by
  unfold http.Client.Do
  cases hs : c.client req with
  | error e => simp
  | ok resp =>
    simp only [reduceCtorEq, exists_false, iff_false]
    cases hv : c.validateStatusCode resp.StatusCode with
    | some err => simp
    | none =>
      cases v with
      | none => simp
      | some target =>
        rcases hd : JSON.Decode resp.Body target with ⟨b, _ | e⟩ <;> simp [hd]

/-- C19: the response of `Do` is nil only when the HTTP send itself failed, and then
`Do` returns the error of the send unchanged; the send of `net/http` fails with a
`*url.Error` only, so that error is none of the four classification errors;
whenever `Do` returns no error the response is present; hence `Create` composed
with the transport never reads the status code of a nil response. -/
theorem Do_nil_response_only_on_send_failure (c : http.Client) :
    (∀ (α : Type) [JSON α] (ctx : Context) (req : Request) (v : Option α),
      ((c.Do α ctx req v).resp = none ↔ ∃ e, c.client req = .error e) ∧
      (∀ e, c.client req = .error e → c.Do α ctx req v = ⟨none, some e, none⟩) ∧
      ((c.Do α ctx req v).err = none → ∃ resp, (c.Do α ctx req v).resp = some resp)) ∧
    (∀ (roundTrip : Request → Except Error Response) (α : Type) [JSON α] (ctx : Context)
      (req : Request) (v : Option α),
      (http.Client.Do { c with client := netClientDo roundTrip } α ctx req v).resp = none →
      ∃ cause, roundTrip req = .error cause ∧
        http.Client.Do { c with client := netClientDo roundTrip } α ctx req v
          = ⟨none, some (urlError req cause), none⟩ ∧
        urlError req cause ≠ Error.ErrContentNotFound ∧
        urlError req cause ≠ Error.ErrBadRequest ∧
        urlError req cause ≠ Error.ErrNotAuthorized ∧
        urlError req cause ≠ Error.ErrInternalServer) ∧
    (∀ [JSON Account] [JSON (Option Account)] (ctx : Context) (account : Option Account),
      (NewAPIClient c.toHttpClient).Create ctx account ≠ .nilDeref) := by
  have hpresent : ∀ (α : Type) [JSON α] (ctx : Context) (req : Request) (v : Option α),
      (c.Do α ctx req v).err = none → ∃ resp, (c.Do α ctx req v).resp = some resp := by
    intro α _ ctx req v herr
    cases hr : (c.Do α ctx req v).resp with
    | some resp => exact ⟨resp, rfl⟩
    | none =>
      obtain ⟨e, he⟩ := (Do_resp_none_iff c α ctx req v).1 hr
      simp [http.Client.Do, he] at herr
  refine ⟨?_, ?_, ?_⟩
  · intro α _ ctx req v
    refine ⟨Do_resp_none_iff c α ctx req v, ?_, hpresent α ctx req v⟩
    intro e he
    simp [http.Client.Do, he]
  · intro roundTrip α _ ctx req v hnil
    obtain ⟨e, he⟩ := (Do_resp_none_iff _ α ctx req v).1 hnil
    cases hrt : roundTrip req with
    | ok resp => simp [netClientDo, hrt] at he
    | error cause =>
      have hsend : netClientDo roundTrip req = .error (urlError req cause) := by
        simp [netClientDo, hrt]
      refine ⟨cause, rfl, ?_, ?_, ?_, ?_, ?_⟩
      · simp [http.Client.Do, hsend]
      all_goals simp [urlError]
  · intro _ _ ctx account
    simp only [APIClient.Create, NewAPIClient, http.Client.toHttpClient]
    cases hr : c.CreateRequest (Option Account) http.MethodPost (apVersion ++ "/" ++ path)
        (some account) with
    | error e => simp
    | ok req =>
      simp only
      cases herr : (c.Do Account ctx req (some {})).err with
      | some e => simp
      | none =>
        obtain ⟨resp, hresp⟩ := hpresent Account ctx req (some {}) herr
        simp only [hresp]
        split <;> simp

/-- A decimal digit character is a digit and carries its value. -/
theorem digitChar_digit (k : Nat) (h : k < 10) :
    (Nat.digitChar k).isDigit = true ∧ (Nat.digitChar k).toNat - 48 = k := by
  interval_cases k <;> exact ⟨by decide, by decide⟩

/-- Reading the numeral of `n` back, digit by digit, gives `n`. -/
theorem toDigitsCore_value (fuel : Nat) : ∀ (n : Nat) (ds : List Char), n < fuel →
    (Nat.toDigitsCore 10 fuel n ds).foldl (fun a c => a * 10 + (c.toNat - 48)) 0
      = ds.foldl (fun a c => a * 10 + (c.toNat - 48)) n := by
  induction fuel with
  | zero => intro n ds h; omega
  | succ fuel ih =>
    intro n ds h
    have hd := (digitChar_digit (n % 10) (Nat.mod_lt _ (by decide))).2
    simp only [Nat.toDigitsCore]
    split_ifs with h0
    · have hn : n % 10 = n := by omega
      rw [hn] at hd
      simp only [List.foldl_cons, hd, hn, Nat.zero_mul, Nat.zero_add]
    · rw [ih (n / 10) _ (by omega)]
      simp only [List.foldl_cons, hd]
      congr 1
      omega

/-- The numeral of a natural number holds digits only. -/
theorem toDigitsCore_chars (fuel : Nat) : ∀ (n : Nat) (ds : List Char) (c : Char),
    c ∈ Nat.toDigitsCore 10 fuel n ds → c.isDigit = true ∨ c ∈ ds := by
  induction fuel with
  | zero => intro n ds c h; exact Or.inr h
  | succ fuel ih =>
    intro n ds c h
    have hd := (digitChar_digit (n % 10) (Nat.mod_lt _ (by decide))).1
    simp only [Nat.toDigitsCore] at h
    split_ifs at h with h0
    · rcases List.mem_cons.1 h with h | h
      · exact Or.inl (h ▸ hd)
      · exact Or.inr h
    · rcases ih _ _ _ h with h | h
      · exact Or.inl h
      · rcases List.mem_cons.1 h with h | h
        · exact Or.inl (h ▸ hd)
        · exact Or.inr h

/-- Two texts that agree after being cut at the first occurrence of a mark agree on
both sides of it. -/
theorem split_at_mark (m : Char) : ∀ (xs ys r1 r2 : List Char), m ∉ xs → m ∉ ys →
    xs ++ m :: r1 = ys ++ m :: r2 → xs = ys ∧ r1 = r2 := by
  intro xs
  induction xs with
  | nil =>
    intro ys r1 r2 _ hy h
    cases ys with
    | nil => simpa using h
    | cons y ys =>
      simp only [List.nil_append, List.cons_append, List.cons.injEq] at h
      exact absurd (h.1 ▸ List.mem_cons_self _ _) hy
  | cons x xs ih =>
    intro ys r1 r2 hx hy h
    cases ys with
    | nil =>
      simp only [List.nil_append, List.cons_append, List.cons.injEq] at h
      exact absurd (h.1 ▸ List.mem_cons_self _ _) hx
    | cons y ys =>
      simp only [List.cons_append, List.cons.injEq] at h
      obtain ⟨h1, h2⟩ := ih ys r1 r2 (fun hm => hx (List.mem_cons_of_mem _ hm))
        (fun hm => hy (List.mem_cons_of_mem _ hm)) h.2
      exact ⟨by rw [h.1, h1], h2⟩

/-- The characters of `Nat.repr`. -/
theorem repr_data (n : Nat) : (Nat.repr n).data = Nat.toDigits 10 n := rfl

/-- Different natural numbers have different numerals. -/
theorem toDigits_injective (a b : Nat) (h : Nat.toDigits 10 a = Nat.toDigits 10 b) : a = b := by
  have ha := toDigitsCore_value (a + 1) a [] (by omega)
  have hb := toDigitsCore_value (b + 1) b [] (by omega)
  simp only [List.foldl_nil] at ha hb
  unfold Nat.toDigits at h
  rw [← ha, ← hb, h]

/-- Every character of a decimal numeral is a digit. -/
theorem toDigits_chars (n : Nat) (c : Char) (h : c ∈ Nat.toDigits 10 n) : c.isDigit = true := by
  rcases toDigitsCore_chars (n + 1) n [] c h with h | h
  · exact h
  · cases h

/-- The characters `%d` prints. -/
theorem fmtInt_data (i : Int) :
    (fmtInt i).data = if i < 0 then '-' :: Nat.toDigits 10 i.natAbs else Nat.toDigits 10 i.natAbs := by
  unfold fmtInt
  split_ifs <;> rfl

/-- The verb `%d` never prints `&`. -/
theorem fmtInt_chars (i : Int) (c : Char) (h : c ∈ (fmtInt i).data) : c ≠ '&' := by
  rw [fmtInt_data] at h
  intro hc
  subst hc
  split_ifs at h
  · rcases List.mem_cons.1 h with h | h
    · exact absurd h (by decide)
    · exact absurd (toDigits_chars _ _ h) (by decide)
  · exact absurd (toDigits_chars _ _ h) (by decide)

/-- The verb `%d` prints different integers differently. -/
theorem fmtInt_injective (i j : Int) (h : fmtInt i = fmtInt j) : i = j := by
  have hd := congrArg String.data h
  rw [fmtInt_data, fmtInt_data] at hd
  split_ifs at hd with hi hj hj
  · have := toDigits_injective _ _ (List.cons.inj hd).2
    omega
  · have hm : '-' ∈ Nat.toDigits 10 j.natAbs := hd ▸ List.mem_cons_self _ _
    exact absurd (toDigits_chars _ _ hm) (by decide)
  · have hm : '-' ∈ Nat.toDigits 10 i.natAbs := hd ▸ List.mem_cons_self _ _
    exact absurd (toDigits_chars _ _ hm) (by decide)
  · have := toDigits_injective _ _ hd
    omega

/-- C20: `Pagination.QueryString` is injective: two paginations with the same query
string have the same page and the same size, so two different page requests never
give the same `List` URI. -/
theorem QueryString_injective (p1 s1 p2 s2 : Int)
    (h : (NewPagination p1 s1).QueryString = (NewPagination p2 s2).QueryString) :
    p1 = p2 ∧ s1 = s2 := by
  have hd := congrArg String.data h
  simp only [Pagination.QueryString, NewPagination, String.data_append,
    List.append_assoc] at hd
  have hd1 := List.append_cancel_left hd
  simp only [List.cons_append] at hd1
  obtain ⟨ha, hb⟩ := split_at_mark '&' _ _ _ _
    (fun hm => fmtInt_chars p1 _ hm rfl) (fun hm => fmtInt_chars p2 _ hm rfl) hd1
  have hb1 : (fmtInt s1).data = (fmtInt s2).data := by
    simpa using hb
  exact ⟨fmtInt_injective _ _ (String.ext ha), fmtInt_injective _ _ (String.ext hb1)⟩

/-- Witness of C20: the query string of the second page of ten is that of no other
pagination. -/
theorem QueryString_injective_witness :
    (NewPagination 1 10).QueryString = (NewPagination 1 10).QueryString ∧
    (NewPagination 1 10).QueryString ≠ (NewPagination 11 0).QueryString :=
  ⟨rfl, fun h => absurd (QueryString_injective 1 10 11 0 h).1 (by decide)⟩

/-- C16 (as stated) fails on the code: the valid document `emptyNamedDoc` decodes to
an account whose `name` is the empty non-nil list; the `omitempty` tag leaves
`name` out of its encoding, and decoding that encoding gives an account whose
`name` is nil, which is not the same value. -/
theorem Account_round_trip_loses_empty_name :
    decodeAccount asciiFold emptyNamedDoc {} = .ok emptyNamed ∧
    decodeAccount asciiFold (encodeAccount emptyNamed) {}
      = .ok { AccoundData := some { Attributes := some { Country := "GB", Name := none } } } ∧
    decodeAccount asciiFold (encodeAccount emptyNamed) {} ≠ .ok emptyNamed := by
  have h : decodeAccount asciiFold (encodeAccount emptyNamed) {}
      = .ok { AccoundData := some { Attributes := some { Country := "GB", Name := none } } } :=
    rfl
  refine ⟨rfl, h, ?_⟩
  rw [h]
  intro hc
  have := Except.ok.inj hc
  revert this
  decide

/-- Decoding the encoding of each element into a fresh slice gives the elements
back. -/
theorem decElems_map {α : Type} (dec : JVal → α → Except Error α) (enc : α → JVal)
    (zero : α) : ∀ (xs : List α), (∀ a ∈ xs, dec (enc a) zero = .ok a) →
      decElems dec zero (xs.map enc) [] = .ok xs := by
  intro xs
  induction xs with
  | nil => intro _; rfl
  | cons x xs ih =>
    intro h
    have hx := h x (List.mem_cons_self _ _)
    have hxs := ih (fun a ha => h a (List.mem_cons_of_mem _ ha))
    simp only [List.map_cons, decElems, List.headD_nil, List.tail_nil, hx, hxs]

/-- A slice of strings survives encoding and decoding. -/
theorem decSlice_strings (xs : Option (List String)) :
    decSlice decString "" (encSlice JVal.str xs) none = .ok xs := by
  cases xs with
  | none => rfl
  | some l =>
    have h := decElems_map decString JVal.str "" l (fun a _ => rfl)
    simp only [encSlice, decSlice, Option.getD_none, h]

/-- A slice of pointers survives encoding and decoding when its elements do. -/
theorem decSlice_ptrs {α : Type} (dec : JVal → α → Except Error α) (enc : α → JVal)
    (zero : α) (hobj : ∀ a, ∃ ms, enc a = .obj ms) (h : ∀ a, dec (enc a) zero = .ok a)
    (xs : Option (List (Option α))) :
    decSlice (decPtr dec zero) none (encSlice (encPtr enc) xs) none = .ok xs := by
  have hp : ∀ p : Option α, decPtr dec zero (encPtr enc p) none = .ok p := by
    intro p
    cases p with
    | none => rfl
    | some a =>
      obtain ⟨ms, hms⟩ := hobj a
      have ha := h a
      simp only [encPtr, hms] at ha ⊢
      simp only [decPtr, Option.getD_none, ha]
  cases xs with
  | none => rfl
  | some l =>
    have h := decElems_map (decPtr dec zero) (encPtr enc) none l (fun a _ => hp a)
    simp only [encSlice, decSlice, Option.getD_none, h]

/-- A pointer to a struct survives encoding and decoding when the struct does. -/
theorem decPtr_struct {α : Type} (dec : JVal → α → Except Error α) (enc : α → JVal)
    (zero : α) (p : Option α) (hobj : ∀ a, ∃ ms, enc a = .obj ms)
    (h : ∀ a, p = some a → dec (enc a) zero = .ok a) :
    decPtr dec zero (encPtr enc p) none = .ok p := by
  cases p with
  | none => rfl
  | some a =>
    obtain ⟨ms, hms⟩ := hobj a
    have ha := h a rfl
    simp only [encPtr, hms] at ha ⊢
    simp only [decPtr, Option.getD_none, ha]

/-- A `Data` survives encoding and decoding. -/
theorem decodeData_encode (eqFold : String → String → Bool) (d : Data) :
    decodeData eqFold (encodeData d) {} = .ok d := by
  simp [decodeData, encodeData, decStruct, decMembers, lookupField, setData, setWith,
    decString]

/-- A `MasterAccount` survives encoding and decoding. -/
theorem decodeMasterAccount_encode (eqFold : String → String → Bool) (m : MasterAccount) :
    decodeMasterAccount eqFold (encodeMasterAccount m) {} = .ok m := by
  have h := decSlice_ptrs (decodeData eqFold) encodeData {} (fun a => ⟨_, rfl⟩)
    (decodeData_encode eqFold) m.Data
  simp [decodeMasterAccount, encodeMasterAccount, decStruct, decMembers, lookupField,
    setMasterAccount, setWith, h]

/-- An `AccountEvents` survives encoding and decoding. -/
theorem decodeAccountEvents_encode (eqFold : String → String → Bool) (m : AccountEvents) :
    decodeAccountEvents eqFold (encodeAccountEvents m) {} = .ok m := by
  have h := decSlice_ptrs (decodeData eqFold) encodeData {} (fun a => ⟨_, rfl⟩)
    (decodeData_encode eqFold) m.Data
  simp [decodeAccountEvents, encodeAccountEvents, decStruct, decMembers, lookupField,
    setAccountEvents, setWith, h]

/-- A `Relationships` survives encoding and decoding. -/
theorem decodeRelationships_encode (eqFold : String → String → Bool) (r : Relationships) :
    decodeRelationships eqFold (encodeRelationships r) {} = .ok r := by
  have h1 := decPtr_struct (decodeMasterAccount eqFold) encodeMasterAccount {} r.Master
    (fun a => ⟨_, rfl⟩) (fun a _ => decodeMasterAccount_encode eqFold a)
  have h2 := decPtr_struct (decodeAccountEvents eqFold) encodeAccountEvents {} r.Events
    (fun a => ⟨_, rfl⟩) (fun a _ => decodeAccountEvents_encode eqFold a)
  simp [decodeRelationships, encodeRelationships, decStruct, decMembers, lookupField,
    setRelationships, setWith, h1, h2]

/-- An `Actors` survives encoding and decoding. -/
theorem decodeActors_encode (eqFold : String → String → Bool) (a : Actors) :
    decodeActors eqFold (encodeActors a) {} = .ok a := by
  have h := decSlice_strings a.Name
  simp [decodeActors, encodeActors, decStruct, decMembers, lookupField, setActors, setWith,
    decString, h]

/-- An `OrganisationIdentification` survives encoding and decoding. -/
theorem decodeOrganisationIdentification_encode (eqFold : String → String → Bool)
    (o : OrganisationIdentification) :
    decodeOrganisationIdentification eqFold (encodeOrganisationIdentification o) {}
      = .ok o := by
  have h1 := decSlice_ptrs (decodeActors eqFold) encodeActors {} (fun a => ⟨_, rfl⟩)
    (decodeActors_encode eqFold) o.Actors
  have h2 := decSlice_strings o.Address
  simp [decodeOrganisationIdentification, encodeOrganisationIdentification, decStruct,
    decMembers, lookupField, setOrganisationIdentification, setWith, decString, h1, h2]

/-- A `PrivateIdentification` survives encoding and decoding. -/
theorem decodePrivateIdentification_encode (eqFold : String → String → Bool)
    (p : PrivateIdentification) :
    decodePrivateIdentification eqFold (encodePrivateIdentification p) {} = .ok p := by
  simp [decodePrivateIdentification, encodePrivateIdentification, decStruct, decMembers,
    lookupField, setPrivateIdentification, setWith, decString]

/-- One step of the decoding of an object: a segment that is empty, or holds one
member of a known name, takes the target from `cur` to `cur'`. -/
theorem decMembers_step {σ : Type} (eqFold : String → String → Bool) (names : List String)
    (set : String → JVal → σ → Except Error σ) (k : String) (l : List (String × JVal))
    (cur cur' : σ) (hk : names.contains k = true)
    (h : (l = [] ∧ cur' = cur) ∨ ∃ v, l = [(k, v)] ∧ set k v cur = .ok cur') :
    decMembers eqFold names set l cur = .ok cur' := by
  rcases h with ⟨hl, hc⟩ | ⟨v, hl, hs⟩
  · subst hl hc
    rfl
  · subst hl
    have hk' : k ∈ names := by simpa using hk
    simp [decMembers, lookupField, hk', hs]

/-- Decoding a list of members in two parts. -/
theorem decMembers_append {σ : Type} (eqFold : String → String → Bool) (names : List String)
    (set : String → JVal → σ → Except Error σ) (xs ys : List (String × JVal)) :
    ∀ cur : σ, decMembers eqFold names set (xs ++ ys) cur =
      match decMembers eqFold names set xs cur with
      | .error e => .error e
      | .ok c => decMembers eqFold names set ys c := by
  induction xs with
  | nil => intro cur; rfl
  | cons x xs ih =>
    intro cur
    obtain ⟨k, v⟩ := x
    simp only [List.cons_append, decMembers]
    cases lookupField eqFold names k with
    | none => exact ih cur
    | some n =>
      dsimp only
      cases set n v cur with
      | error e => rfl
      | ok c => exact ih c

/-- An `Attributes` whose `name` and `alternative_names` are not empty non-nil lists
survives encoding and decoding. -/
theorem decodeAttributes_encode (eqFold : String → String → Bool) (a : Attributes)
    (hName : a.Name ≠ some []) (hAlt : a.AlternativeNames ≠ some []) :
    decodeAttributes eqFold (encodeAttributes a) {} = .ok a := by
  have h1 : decMembers eqFold attributesNames (setAttributes eqFold)
      [("country", JVal.str a.Country)]
      ({} : Attributes)
      = .ok ({ Country := a.Country } : Attributes) := by
    apply decMembers_step eqFold attributesNames (setAttributes eqFold) "country" _ _ _ (by decide)
    exact Or.inr ⟨_, rfl, by simp [setAttributes, setWith, decString]⟩
  have h2 : decMembers eqFold attributesNames (setAttributes eqFold)
      (omitString "base_currency" a.BaseCurrency)
      ({ Country := a.Country } : Attributes)
      = .ok ({ Country := a.Country, BaseCurrency := a.BaseCurrency } : Attributes) := by
    apply decMembers_step eqFold attributesNames (setAttributes eqFold) "base_currency" _ _ _ (by decide)
    by_cases hs : a.BaseCurrency = ""
    · exact Or.inl ⟨by simp [omitString, hs], by simp [hs]⟩
    · exact Or.inr ⟨JVal.str a.BaseCurrency, by simp [omitString, hs],
        by simp [setAttributes, setWith, decString]⟩
  have h3 : decMembers eqFold attributesNames (setAttributes eqFold)
      (omitString "account_number" a.AccountNumber)
      ({ Country := a.Country, BaseCurrency := a.BaseCurrency } : Attributes)
      = .ok ({ Country := a.Country, BaseCurrency := a.BaseCurrency, AccountNumber := a.AccountNumber } : Attributes) := by
    apply decMembers_step eqFold attributesNames (setAttributes eqFold) "account_number" _ _ _ (by decide)
    by_cases hs : a.AccountNumber = ""
    · exact Or.inl ⟨by simp [omitString, hs], by simp [hs]⟩
    · exact Or.inr ⟨JVal.str a.AccountNumber, by simp [omitString, hs],
        by simp [setAttributes, setWith, decString]⟩
  have h4 : decMembers eqFold attributesNames (setAttributes eqFold)
      (omitString "bank_id" a.BankID)
      ({ Country := a.Country, BaseCurrency := a.BaseCurrency, AccountNumber := a.AccountNumber } : Attributes)
      = .ok ({ Country := a.Country, BaseCurrency := a.BaseCurrency, AccountNumber := a.AccountNumber, BankID := a.BankID } : Attributes) := by
    apply decMembers_step eqFold attributesNames (setAttributes eqFold) "bank_id" _ _ _ (by decide)
    by_cases hs : a.BankID = ""
    · exact Or.inl ⟨by simp [omitString, hs], by simp [hs]⟩
    · exact Or.inr ⟨JVal.str a.BankID, by simp [omitString, hs],
        by simp [setAttributes, setWith, decString]⟩
  have h5 : decMembers eqFold attributesNames (setAttributes eqFold)
      (omitString "bank_id_code" a.BankIDCode)
      ({ Country := a.Country, BaseCurrency := a.BaseCurrency, AccountNumber := a.AccountNumber, BankID := a.BankID } : Attributes)
      = .ok ({ Country := a.Country, BaseCurrency := a.BaseCurrency, AccountNumber := a.AccountNumber, BankID := a.BankID, BankIDCode := a.BankIDCode } : Attributes) := by
    apply decMembers_step eqFold attributesNames (setAttributes eqFold) "bank_id_code" _ _ _ (by decide)
    by_cases hs : a.BankIDCode = ""
    · exact Or.inl ⟨by simp [omitString, hs], by simp [hs]⟩
    · exact Or.inr ⟨JVal.str a.BankIDCode, by simp [omitString, hs],
        by simp [setAttributes, setWith, decString]⟩
  have h6 : decMembers eqFold attributesNames (setAttributes eqFold)
      (omitString "bic" a.Bic)
      ({ Country := a.Country, BaseCurrency := a.BaseCurrency, AccountNumber := a.AccountNumber, BankID := a.BankID, BankIDCode := a.BankIDCode } : Attributes)
      = .ok ({ Country := a.Country, BaseCurrency := a.BaseCurrency, AccountNumber := a.AccountNumber, BankID := a.BankID, BankIDCode := a.BankIDCode, Bic := a.Bic } : Attributes) := by
    apply decMembers_step eqFold attributesNames (setAttributes eqFold) "bic" _ _ _ (by decide)
    by_cases hs : a.Bic = ""
    · exact Or.inl ⟨by simp [omitString, hs], by simp [hs]⟩
    · exact Or.inr ⟨JVal.str a.Bic, by simp [omitString, hs],
        by simp [setAttributes, setWith, decString]⟩
  have h7 : decMembers eqFold attributesNames (setAttributes eqFold)
      (omitString "iban" a.Iban)
      ({ Country := a.Country, BaseCurrency := a.BaseCurrency, AccountNumber := a.AccountNumber, BankID := a.BankID, BankIDCode := a.BankIDCode, Bic := a.Bic } : Attributes)
      = .ok ({ Country := a.Country, BaseCurrency := a.BaseCurrency, AccountNumber := a.AccountNumber, BankID := a.BankID, BankIDCode := a.BankIDCode, Bic := a.Bic, Iban := a.Iban } : Attributes) := by
    apply decMembers_step eqFold attributesNames (setAttributes eqFold) "iban" _ _ _ (by decide)
    by_cases hs : a.Iban = ""
    · exact Or.inl ⟨by simp [omitString, hs], by simp [hs]⟩
    · exact Or.inr ⟨JVal.str a.Iban, by simp [omitString, hs],
        by simp [setAttributes, setWith, decString]⟩
  have h8 : decMembers eqFold attributesNames (setAttributes eqFold)
      (omitSlice "name" JVal.str a.Name)
      ({ Country := a.Country, BaseCurrency := a.BaseCurrency, AccountNumber := a.AccountNumber, BankID := a.BankID, BankIDCode := a.BankIDCode, Bic := a.Bic, Iban := a.Iban } : Attributes)
      = .ok ({ Country := a.Country, BaseCurrency := a.BaseCurrency, AccountNumber := a.AccountNumber, BankID := a.BankID, BankIDCode := a.BankIDCode, Bic := a.Bic, Iban := a.Iban, Name := a.Name } : Attributes) := by
    apply decMembers_step eqFold attributesNames (setAttributes eqFold) "name" _ _ _ (by decide)
    have hdec := decSlice_strings a.Name
    cases hs : a.Name with
    | none => exact Or.inl ⟨by simp [omitSlice, hs], rfl⟩
    | some l =>
      cases l with
      | nil => exact absurd hs hName
      | cons x xs =>
        rw [hs] at hdec
        exact Or.inr ⟨encSlice JVal.str (some (x :: xs)), by simp [omitSlice],
          by simp [setAttributes, setWith, hdec]⟩
  have h9 : decMembers eqFold attributesNames (setAttributes eqFold)
      (omitSlice "alternative_names" JVal.str a.AlternativeNames)
      ({ Country := a.Country, BaseCurrency := a.BaseCurrency, AccountNumber := a.AccountNumber, BankID := a.BankID, BankIDCode := a.BankIDCode, Bic := a.Bic, Iban := a.Iban, Name := a.Name } : Attributes)
      = .ok ({ Country := a.Country, BaseCurrency := a.BaseCurrency, AccountNumber := a.AccountNumber, BankID := a.BankID, BankIDCode := a.BankIDCode, Bic := a.Bic, Iban := a.Iban, Name := a.Name, AlternativeNames := a.AlternativeNames } : Attributes) := by
    apply decMembers_step eqFold attributesNames (setAttributes eqFold) "alternative_names" _ _ _ (by decide)
    have hdec := decSlice_strings a.AlternativeNames
    cases hs : a.AlternativeNames with
    | none => exact Or.inl ⟨by simp [omitSlice, hs], rfl⟩
    | some l =>
      cases l with
      | nil => exact absurd hs hAlt
      | cons x xs =>
        rw [hs] at hdec
        exact Or.inr ⟨encSlice JVal.str (some (x :: xs)), by simp [omitSlice],
          by simp [setAttributes, setWith, hdec]⟩
  have h10 : decMembers eqFold attributesNames (setAttributes eqFold)
      (omitString "account_classification" a.AccountClassification)
      ({ Country := a.Country, BaseCurrency := a.BaseCurrency, AccountNumber := a.AccountNumber, BankID := a.BankID, BankIDCode := a.BankIDCode, Bic := a.Bic, Iban := a.Iban, Name := a.Name, AlternativeNames := a.AlternativeNames } : Attributes)
      = .ok ({ Country := a.Country, BaseCurrency := a.BaseCurrency, AccountNumber := a.AccountNumber, BankID := a.BankID, BankIDCode := a.BankIDCode, Bic := a.Bic, Iban := a.Iban, Name := a.Name, AlternativeNames := a.AlternativeNames, AccountClassification := a.AccountClassification } : Attributes) := by
    apply decMembers_step eqFold attributesNames (setAttributes eqFold) "account_classification" _ _ _ (by decide)
    by_cases hs : a.AccountClassification = ""
    · exact Or.inl ⟨by simp [omitString, hs], by simp [hs]⟩
    · exact Or.inr ⟨JVal.str a.AccountClassification, by simp [omitString, hs],
        by simp [setAttributes, setWith, decString]⟩
  have h11 : decMembers eqFold attributesNames (setAttributes eqFold)
      (omitBool "joint_account" a.JointAccount)
      ({ Country := a.Country, BaseCurrency := a.BaseCurrency, AccountNumber := a.AccountNumber, BankID := a.BankID, BankIDCode := a.BankIDCode, Bic := a.Bic, Iban := a.Iban, Name := a.Name, AlternativeNames := a.AlternativeNames, AccountClassification := a.AccountClassification } : Attributes)
      = .ok ({ Country := a.Country, BaseCurrency := a.BaseCurrency, AccountNumber := a.AccountNumber, BankID := a.BankID, BankIDCode := a.BankIDCode, Bic := a.Bic, Iban := a.Iban, Name := a.Name, AlternativeNames := a.AlternativeNames, AccountClassification := a.AccountClassification, JointAccount := a.JointAccount } : Attributes) := by
    apply decMembers_step eqFold attributesNames (setAttributes eqFold) "joint_account" _ _ _ (by decide)
    by_cases hs : a.JointAccount = false
    · exact Or.inl ⟨by simp [omitBool, hs], by simp [hs]⟩
    · exact Or.inr ⟨JVal.bool a.JointAccount, by simp [omitBool, hs],
        by simp [setAttributes, setWith, decBool]⟩
  have h12 : decMembers eqFold attributesNames (setAttributes eqFold)
      (omitBool "account_matching_opt_out" a.AccountMatchingOptOut)
      ({ Country := a.Country, BaseCurrency := a.BaseCurrency, AccountNumber := a.AccountNumber, BankID := a.BankID, BankIDCode := a.BankIDCode, Bic := a.Bic, Iban := a.Iban, Name := a.Name, AlternativeNames := a.AlternativeNames, AccountClassification := a.AccountClassification, JointAccount := a.JointAccount } : Attributes)
      = .ok ({ Country := a.Country, BaseCurrency := a.BaseCurrency, AccountNumber := a.AccountNumber, BankID := a.BankID, BankIDCode := a.BankIDCode, Bic := a.Bic, Iban := a.Iban, Name := a.Name, AlternativeNames := a.AlternativeNames, AccountClassification := a.AccountClassification, JointAccount := a.JointAccount, AccountMatchingOptOut := a.AccountMatchingOptOut } : Attributes) := by
    apply decMembers_step eqFold attributesNames (setAttributes eqFold) "account_matching_opt_out" _ _ _ (by decide)
    by_cases hs : a.AccountMatchingOptOut = false
    · exact Or.inl ⟨by simp [omitBool, hs], by simp [hs]⟩
    · exact Or.inr ⟨JVal.bool a.AccountMatchingOptOut, by simp [omitBool, hs],
        by simp [setAttributes, setWith, decBool]⟩
  have h13 : decMembers eqFold attributesNames (setAttributes eqFold)
      (omitString "secondary_identification" a.SecondaryID)
      ({ Country := a.Country, BaseCurrency := a.BaseCurrency, AccountNumber := a.AccountNumber, BankID := a.BankID, BankIDCode := a.BankIDCode, Bic := a.Bic, Iban := a.Iban, Name := a.Name, AlternativeNames := a.AlternativeNames, AccountClassification := a.AccountClassification, JointAccount := a.JointAccount, AccountMatchingOptOut := a.AccountMatchingOptOut } : Attributes)
      = .ok ({ Country := a.Country, BaseCurrency := a.BaseCurrency, AccountNumber := a.AccountNumber, BankID := a.BankID, BankIDCode := a.BankIDCode, Bic := a.Bic, Iban := a.Iban, Name := a.Name, AlternativeNames := a.AlternativeNames, AccountClassification := a.AccountClassification, JointAccount := a.JointAccount, AccountMatchingOptOut := a.AccountMatchingOptOut, SecondaryID := a.SecondaryID } : Attributes) := by
    apply decMembers_step eqFold attributesNames (setAttributes eqFold) "secondary_identification" _ _ _ (by decide)
    by_cases hs : a.SecondaryID = ""
    · exact Or.inl ⟨by simp [omitString, hs], by simp [hs]⟩
    · exact Or.inr ⟨JVal.str a.SecondaryID, by simp [omitString, hs],
        by simp [setAttributes, setWith, decString]⟩
  have h14 : decMembers eqFold attributesNames (setAttributes eqFold)
      (omitBool "switched" a.Switched)
      ({ Country := a.Country, BaseCurrency := a.BaseCurrency, AccountNumber := a.AccountNumber, BankID := a.BankID, BankIDCode := a.BankIDCode, Bic := a.Bic, Iban := a.Iban, Name := a.Name, AlternativeNames := a.AlternativeNames, AccountClassification := a.AccountClassification, JointAccount := a.JointAccount, AccountMatchingOptOut := a.AccountMatchingOptOut, SecondaryID := a.SecondaryID } : Attributes)
      = .ok ({ Country := a.Country, BaseCurrency := a.BaseCurrency, AccountNumber := a.AccountNumber, BankID := a.BankID, BankIDCode := a.BankIDCode, Bic := a.Bic, Iban := a.Iban, Name := a.Name, AlternativeNames := a.AlternativeNames, AccountClassification := a.AccountClassification, JointAccount := a.JointAccount, AccountMatchingOptOut := a.AccountMatchingOptOut, SecondaryID := a.SecondaryID, Switched := a.Switched } : Attributes) := by
    apply decMembers_step eqFold attributesNames (setAttributes eqFold) "switched" _ _ _ (by decide)
    by_cases hs : a.Switched = false
    · exact Or.inl ⟨by simp [omitBool, hs], by simp [hs]⟩
    · exact Or.inr ⟨JVal.bool a.Switched, by simp [omitBool, hs],
        by simp [setAttributes, setWith, decBool]⟩
  have h15 : decMembers eqFold attributesNames (setAttributes eqFold)
      (omitPtr "private_identification" encodePrivateIdentification a.PrivateID)
      ({ Country := a.Country, BaseCurrency := a.BaseCurrency, AccountNumber := a.AccountNumber, BankID := a.BankID, BankIDCode := a.BankIDCode, Bic := a.Bic, Iban := a.Iban, Name := a.Name, AlternativeNames := a.AlternativeNames, AccountClassification := a.AccountClassification, JointAccount := a.JointAccount, AccountMatchingOptOut := a.AccountMatchingOptOut, SecondaryID := a.SecondaryID, Switched := a.Switched } : Attributes)
      = .ok ({ Country := a.Country, BaseCurrency := a.BaseCurrency, AccountNumber := a.AccountNumber, BankID := a.BankID, BankIDCode := a.BankIDCode, Bic := a.Bic, Iban := a.Iban, Name := a.Name, AlternativeNames := a.AlternativeNames, AccountClassification := a.AccountClassification, JointAccount := a.JointAccount, AccountMatchingOptOut := a.AccountMatchingOptOut, SecondaryID := a.SecondaryID, Switched := a.Switched, PrivateID := a.PrivateID } : Attributes) := by
    apply decMembers_step eqFold attributesNames (setAttributes eqFold) "private_identification" _ _ _ (by decide)
    cases hs : a.PrivateID with
    | none => exact Or.inl ⟨rfl, rfl⟩
    | some x =>
      have hp := decPtr_struct (decodePrivateIdentification eqFold) encodePrivateIdentification {} (some x)
        (fun y => ⟨_, rfl⟩) (fun y _ => decodePrivateIdentification_encode eqFold y)
      simp only [encPtr] at hp
      exact Or.inr ⟨encodePrivateIdentification x, rfl, by simp [setAttributes, setWith, hp]⟩
  have h16 : decMembers eqFold attributesNames (setAttributes eqFold)
      (omitPtr "organisation_identification" encodeOrganisationIdentification a.OrganisationID)
      ({ Country := a.Country, BaseCurrency := a.BaseCurrency, AccountNumber := a.AccountNumber, BankID := a.BankID, BankIDCode := a.BankIDCode, Bic := a.Bic, Iban := a.Iban, Name := a.Name, AlternativeNames := a.AlternativeNames, AccountClassification := a.AccountClassification, JointAccount := a.JointAccount, AccountMatchingOptOut := a.AccountMatchingOptOut, SecondaryID := a.SecondaryID, Switched := a.Switched, PrivateID := a.PrivateID } : Attributes)
      = .ok ({ Country := a.Country, BaseCurrency := a.BaseCurrency, AccountNumber := a.AccountNumber, BankID := a.BankID, BankIDCode := a.BankIDCode, Bic := a.Bic, Iban := a.Iban, Name := a.Name, AlternativeNames := a.AlternativeNames, AccountClassification := a.AccountClassification, JointAccount := a.JointAccount, AccountMatchingOptOut := a.AccountMatchingOptOut, SecondaryID := a.SecondaryID, Switched := a.Switched, PrivateID := a.PrivateID, OrganisationID := a.OrganisationID } : Attributes) := by
    apply decMembers_step eqFold attributesNames (setAttributes eqFold) "organisation_identification" _ _ _ (by decide)
    cases hs : a.OrganisationID with
    | none => exact Or.inl ⟨rfl, rfl⟩
    | some x =>
      have hp := decPtr_struct (decodeOrganisationIdentification eqFold) encodeOrganisationIdentification {} (some x)
        (fun y => ⟨_, rfl⟩) (fun y _ => decodeOrganisationIdentification_encode eqFold y)
      simp only [encPtr] at hp
      exact Or.inr ⟨encodeOrganisationIdentification x, rfl, by simp [setAttributes, setWith, hp]⟩
  have h17 : decMembers eqFold attributesNames (setAttributes eqFold)
      (omitString "status" a.Status)
      ({ Country := a.Country, BaseCurrency := a.BaseCurrency, AccountNumber := a.AccountNumber, BankID := a.BankID, BankIDCode := a.BankIDCode, Bic := a.Bic, Iban := a.Iban, Name := a.Name, AlternativeNames := a.AlternativeNames, AccountClassification := a.AccountClassification, JointAccount := a.JointAccount, AccountMatchingOptOut := a.AccountMatchingOptOut, SecondaryID := a.SecondaryID, Switched := a.Switched, PrivateID := a.PrivateID, OrganisationID := a.OrganisationID } : Attributes)
      = .ok ({ Country := a.Country, BaseCurrency := a.BaseCurrency, AccountNumber := a.AccountNumber, BankID := a.BankID, BankIDCode := a.BankIDCode, Bic := a.Bic, Iban := a.Iban, Name := a.Name, AlternativeNames := a.AlternativeNames, AccountClassification := a.AccountClassification, JointAccount := a.JointAccount, AccountMatchingOptOut := a.AccountMatchingOptOut, SecondaryID := a.SecondaryID, Switched := a.Switched, PrivateID := a.PrivateID, OrganisationID := a.OrganisationID, Status := a.Status } : Attributes) := by
    apply decMembers_step eqFold attributesNames (setAttributes eqFold) "status" _ _ _ (by decide)
    by_cases hs : a.Status = ""
    · exact Or.inl ⟨by simp [omitString, hs], by simp [hs]⟩
    · exact Or.inr ⟨JVal.str a.Status, by simp [omitString, hs],
        by simp [setAttributes, setWith, decString]⟩
  simp only [decodeAttributes, encodeAttributes, decStruct, attributesMembers,
    decMembers_append, h1, h2, h3, h4, h5, h6, h7, h8, h9, h10, h11, h12, h13, h14, h15,
    h16, h17]

/-- What a successful decoding into a pointer gives: nil, or the pointee decoded
from the pointee it had (a zero value for a nil pointer). -/
theorem decPtr_ok {α : Type} (dec : JVal → α → Except Error α) (zero : α) (v : JVal)
    (cur r : Option α) (h : decPtr dec zero v cur = .ok r) :
    r = none ∨ ∃ a, dec v (cur.getD zero) = .ok a ∧ r = some a := by
  cases v
  case null =>
    left
    simpa [decPtr] using h.symm
  all_goals
    right
    simp only [decPtr] at h
    split at h
    · cases h
    · rename_i a ha
      exact ⟨a, ha, (Except.ok.inj h).symm⟩

/-- A property of the target that every member decoding keeps is kept by the
decoding of an object. -/
theorem decMembers_invariant {σ : Type} (P : σ → Prop) (eqFold : String → String → Bool)
    (names : List String) (set : String → JVal → σ → Except Error σ)
    (hset : ∀ n v cur cur', P cur → set n v cur = .ok cur' → P cur') :
    ∀ (ms : List (String × JVal)) (cur cur' : σ), P cur →
      decMembers eqFold names set ms cur = .ok cur' → P cur' := by
  intro ms
  induction ms with
  | nil =>
    intro cur cur' hP h
    simp only [decMembers] at h
    exact (Except.ok.inj h) ▸ hP
  | cons m ms ih =>
    intro cur cur' hP h
    obtain ⟨k, v⟩ := m
    simp only [decMembers] at h
    split at h
    · exact ih cur cur' hP h
    · split at h
      · cases h
      · rename_i c hc
        exact ih c cur' (hset _ _ _ _ hP hc) h

/-- A property of the target that every member decoding keeps is kept by the
decoding of a struct. -/
theorem decStruct_invariant {σ : Type} (P : σ → Prop) (eqFold : String → String → Bool)
    (names : List String) (set : String → JVal → σ → Except Error σ)
    (hset : ∀ n v cur cur', P cur → set n v cur = .ok cur' → P cur')
    (v : JVal) (cur cur' : σ) (hP : P cur)
    (h : decStruct eqFold names set v cur = .ok cur') : P cur' := by
  cases v
  case null =>
    simp only [decStruct] at h
    exact (Except.ok.inj h) ▸ hP
  case obj ms =>
    simp only [decStruct] at h
    exact decMembers_invariant P eqFold names set hset ms cur cur' hP h
  all_goals
    simp only [decStruct] at h
    cases h

/-- What a successful field update gives. -/
theorem setWith_ok {α σ : Type} (r : Except Error α) (put : α → σ) (s : σ)
    (h : setWith r put = .ok s) : ∃ a, r = .ok a ∧ s = put a := by
  cases r with
  | error e => cases h
  | ok a => exact ⟨a, rfl, (Except.ok.inj h).symm⟩

/-- A decoded `int` lies in the 64-bit range when the target did. -/
theorem decInt_range (v : JVal) (cur x : Int)
    (hcur : -(2 : Int) ^ 63 ≤ cur ∧ cur < (2 : Int) ^ 63) (h : decInt v cur = .ok x) :
    -(2 : Int) ^ 63 ≤ x ∧ x < (2 : Int) ^ 63 := by
  cases v
  case null =>
    simp only [decInt] at h
    exact (Except.ok.inj h) ▸ hcur
  case num i =>
    simp only [decInt] at h
    split_ifs at h with hi
    exact (Except.ok.inj h) ▸ hi
  all_goals
    simp only [decInt] at h
    cases h

/-- The version of a decoded `AccoundData` is a 64-bit integer when that of the
target was. -/
theorem decodeAccoundData_version (eqFold : String → String → Bool) (v : JVal)
    (cur d : AccoundData)
    (hcur : -(2 : Int) ^ 63 ≤ cur.Version ∧ cur.Version < (2 : Int) ^ 63)
    (h : decodeAccoundData eqFold v cur = .ok d) :
    -(2 : Int) ^ 63 ≤ d.Version ∧ d.Version < (2 : Int) ^ 63 := by
  refine decStruct_invariant
    (fun x : AccoundData => -(2 : Int) ^ 63 ≤ x.Version ∧ x.Version < (2 : Int) ^ 63)
    eqFold _ (setAccoundData eqFold) ?_ v cur d hcur h
  intro n w c c' hc hs
  unfold setAccoundData at hs
  split_ifs at hs
  all_goals first
    | (obtain ⟨x, hx, rfl⟩ := setWith_ok _ _ _ hs
       first
         | exact decInt_range _ _ _ hc hx
         | exact hc)
    | exact (Except.ok.inj hs) ▸ hc

/-- The version of a decoded account is a 64-bit integer. -/
theorem decodeAccount_version (eqFold : String → String → Bool) (doc : JVal) (a : Account)
    (h : decodeAccount eqFold doc {} = .ok a) :
    ∀ d, a.AccoundData = some d →
      -(2 : Int) ^ 63 ≤ d.Version ∧ d.Version < (2 : Int) ^ 63 := by
  refine decStruct_invariant
    (fun x : Account => ∀ d, x.AccoundData = some d →
      -(2 : Int) ^ 63 ≤ d.Version ∧ d.Version < (2 : Int) ^ 63)
    eqFold _ (setAccount eqFold) ?_ doc {} a (fun d hd => by cases hd) h
  intro n w c c' hc hs
  unfold setAccount at hs
  split_ifs at hs
  · obtain ⟨x, hx, rfl⟩ := setWith_ok _ _ _ hs
    intro d hd
    have hd' : x = some d := hd
    rcases decPtr_ok _ _ _ _ _ hx with hnone | ⟨y, hy, hsome⟩
    · rw [hnone] at hd'
      cases hd'
    · rw [hsome] at hd'
      obtain rfl := Option.some.inj hd'
      refine decodeAccoundData_version eqFold w _ _ ?_ hy
      cases hcd : c.AccoundData with
      | none => exact ⟨by decide, by decide⟩
      | some d0 => exact hc d0 hcd
  · exact (Except.ok.inj hs) ▸ hc

/-- An `AccoundData` whose version is a 64-bit integer and whose attributes have no
empty non-nil `name` or `alternative_names` survives encoding and decoding. -/
theorem decodeAccoundData_encode (eqFold : String → String → Bool) (d : AccoundData)
    (hversion : -(2 : Int) ^ 63 ≤ d.Version ∧ d.Version < (2 : Int) ^ 63)
    (hnames : ∀ at_, d.Attributes = some at_ →
      at_.Name ≠ some [] ∧ at_.AlternativeNames ≠ some []) :
    decodeAccoundData eqFold (encodeAccoundData d) {} = .ok d := by
  have h1 := decPtr_struct (decodeAttributes eqFold) encodeAttributes {} d.Attributes
    (fun a => ⟨_, rfl⟩)
    (fun a ha => decodeAttributes_encode eqFold a (hnames a ha).1 (hnames a ha).2)
  have h2 := decPtr_struct (decodeRelationships eqFold) encodeRelationships {}
    d.Relationships (fun a => ⟨_, rfl⟩) (fun a _ => decodeRelationships_encode eqFold a)
  have h3 : decInt (.num d.Version) 0 = .ok d.Version := by
    simp only [decInt, hversion, and_self, if_true]
  simp [decodeAccoundData, encodeAccoundData, decStruct, decMembers, lookupField,
    setAccoundData, setWith, decString, h1, h2, h3]

/-- C16 (amended): for every `Account` obtained by decoding a JSON document into a
fresh `Account`, and whose attributes hold no empty non-nil `name` or
`alternative_names` list, decoding the JSON encoding of the account into a fresh
`Account` gives the account back, every field identical. -/
theorem Account_round_trip (eqFold : String → String → Bool) (doc : JVal) (a : Account)
    (hdoc : decodeAccount eqFold doc {} = .ok a)
    (hnames : ∀ d at_, a.AccoundData = some d → d.Attributes = some at_ →
      at_.Name ≠ some [] ∧ at_.AlternativeNames ≠ some []) :
    decodeAccount eqFold (encodeAccount a) {} = .ok a := by
  have hversion := decodeAccount_version eqFold doc a hdoc
  have h := decPtr_struct (decodeAccoundData eqFold) encodeAccoundData {} a.AccoundData
    (fun d => ⟨_, rfl⟩)
    (fun d hd => decodeAccoundData_encode eqFold d (hversion d hd) (hnames d · hd))
  simp [decodeAccount, encodeAccount, decStruct, decMembers, lookupField, setAccount,
    setWith, h]

/-- Witness of C16 (amended): the account decoded from `populatedDoc`, with nested
identification records, lists and relationships, survives encoding and decoding. -/
theorem Account_round_trip_witness :
    decodeAccount asciiFold populatedDoc {} = .ok populated ∧
    decodeAccount asciiFold (encodeAccount populated) {} = .ok populated :=
  ⟨rfl, Account_round_trip asciiFold populatedDoc populated rfl
    (fun d at_ hd hat => by
      have hd' : d = _ := (Option.some.inj hd).symm
      subst hd'
      have hat' : at_ = _ := (Option.some.inj hat).symm
      subst hat'
      decide)⟩

/-- The member a string field under `omitempty` contributes. -/
theorem mem_omitString (k s : String) (k' : String) (v : JVal) :
    (k', v) ∈ omitString k s ↔ k' = k ∧ v = .str s ∧ s ≠ "" := by
  unfold omitString
  split_ifs with h
  · simp [h]
  · simp only [List.mem_singleton, Prod.mk.injEq]
    tauto

/-- The member a boolean field under `omitempty` contributes. -/
theorem mem_omitBool (k : String) (b : Bool) (k' : String) (v : JVal) :
    (k', v) ∈ omitBool k b ↔ k' = k ∧ v = .bool true ∧ b = true := by
  cases b <;> simp [omitBool]

/-- The member a list field under `omitempty` contributes. -/
theorem mem_omitSlice (k : String) (xs : Option (List String)) (k' : String) (v : JVal) :
    (k', v) ∈ omitSlice k JVal.str xs ↔
      k' = k ∧ ∃ x l, xs = some (x :: l) ∧ v = .arr (.str x :: l.map JVal.str) := by
  rcases xs with _ | _ | ⟨x, l⟩
  · simp [omitSlice]
  · simp [omitSlice]
  · simp only [omitSlice, encSlice, Option.getD_some, List.isEmpty_cons, Bool.false_eq_true,
      if_false, List.mem_singleton, Prod.mk.injEq, List.map_cons]
    constructor
    · rintro ⟨hk, hv⟩
      exact ⟨hk, x, l, rfl, hv⟩
    · rintro ⟨hk, y, m, hy, hv⟩
      obtain ⟨rfl, rfl⟩ := List.cons.inj (Option.some.inj hy)
      exact ⟨hk, hv⟩

/-- The member a pointer field under `omitempty` contributes. -/
theorem mem_omitPtr {α : Type} (k : String) (enc : α → JVal) (p : Option α) (k' : String)
    (v : JVal) : (k', v) ∈ omitPtr k enc p ↔ k' = k ∧ ∃ a, p = some a ∧ v = enc a := by
  cases p <;> simp [omitPtr]

/-- The members of the encoding of an `Attributes`, one by one. -/
theorem mem_attributesMembers (a : Attributes) (k : String) (v : JVal) :
    (k, v) ∈ attributesMembers a ↔
      (k = "country" ∧ v = .str a.Country) ∨
      (k = "base_currency" ∧ v = .str a.BaseCurrency ∧ a.BaseCurrency ≠ "") ∨
      (k = "account_number" ∧ v = .str a.AccountNumber ∧ a.AccountNumber ≠ "") ∨
      (k = "bank_id" ∧ v = .str a.BankID ∧ a.BankID ≠ "") ∨
      (k = "bank_id_code" ∧ v = .str a.BankIDCode ∧ a.BankIDCode ≠ "") ∨
      (k = "bic" ∧ v = .str a.Bic ∧ a.Bic ≠ "") ∨
      (k = "iban" ∧ v = .str a.Iban ∧ a.Iban ≠ "") ∨
      (k = "name" ∧ ∃ x l, a.Name = some (x :: l) ∧ v = .arr (.str x :: l.map JVal.str)) ∨
      (k = "alternative_names" ∧
        ∃ x l, a.AlternativeNames = some (x :: l) ∧ v = .arr (.str x :: l.map JVal.str)) ∨
      (k = "account_classification" ∧ v = .str a.AccountClassification ∧
        a.AccountClassification ≠ "") ∨
      (k = "joint_account" ∧ v = .bool true ∧ a.JointAccount = true) ∨
      (k = "account_matching_opt_out" ∧ v = .bool true ∧ a.AccountMatchingOptOut = true) ∨
      (k = "secondary_identification" ∧ v = .str a.SecondaryID ∧ a.SecondaryID ≠ "") ∨
      (k = "switched" ∧ v = .bool true ∧ a.Switched = true) ∨
      (k = "private_identification" ∧
        ∃ p, a.PrivateID = some p ∧ v = encodePrivateIdentification p) ∨
      (k = "organisation_identification" ∧
        ∃ o, a.OrganisationID = some o ∧ v = encodeOrganisationIdentification o) ∨
      (k = "status" ∧ v = .str a.Status ∧ a.Status ≠ "") := by
  simp only [attributesMembers, List.mem_append, List.mem_singleton, Prod.mk.injEq,
    mem_omitString, mem_omitBool, mem_omitSlice, mem_omitPtr, or_assoc]

/-- C17: the JSON encoding of every `Attributes` holds the key `country`, and holds
the key of any other attribute field exactly when that field is set (non-empty
string, non-empty list, true flag, non-nil nested record); no field other than
`country` is emitted as null, as the empty string, as the empty list or as false. -/
theorem Attributes_encoding_omits_unset (a : Attributes) :
    encodeAttributes a = .obj (attributesMembers a) ∧
    (∃ v, ("country", v) ∈ attributesMembers a) ∧
    ((∃ v, ("base_currency", v) ∈ attributesMembers a) ↔ a.BaseCurrency ≠ "") ∧
    ((∃ v, ("account_number", v) ∈ attributesMembers a) ↔ a.AccountNumber ≠ "") ∧
    ((∃ v, ("bank_id", v) ∈ attributesMembers a) ↔ a.BankID ≠ "") ∧
    ((∃ v, ("bank_id_code", v) ∈ attributesMembers a) ↔ a.BankIDCode ≠ "") ∧
    ((∃ v, ("bic", v) ∈ attributesMembers a) ↔ a.Bic ≠ "") ∧
    ((∃ v, ("iban", v) ∈ attributesMembers a) ↔ a.Iban ≠ "") ∧
    ((∃ v, ("name", v) ∈ attributesMembers a) ↔ ∃ x l, a.Name = some (x :: l)) ∧
    ((∃ v, ("alternative_names", v) ∈ attributesMembers a) ↔
      ∃ x l, a.AlternativeNames = some (x :: l)) ∧
    ((∃ v, ("account_classification", v) ∈ attributesMembers a) ↔
      a.AccountClassification ≠ "") ∧
    ((∃ v, ("joint_account", v) ∈ attributesMembers a) ↔ a.JointAccount = true) ∧
    ((∃ v, ("account_matching_opt_out", v) ∈ attributesMembers a) ↔
      a.AccountMatchingOptOut = true) ∧
    ((∃ v, ("secondary_identification", v) ∈ attributesMembers a) ↔ a.SecondaryID ≠ "") ∧
    ((∃ v, ("switched", v) ∈ attributesMembers a) ↔ a.Switched = true) ∧
    ((∃ v, ("private_identification", v) ∈ attributesMembers a) ↔ a.PrivateID ≠ none) ∧
    ((∃ v, ("organisation_identification", v) ∈ attributesMembers a) ↔
      a.OrganisationID ≠ none) ∧
    ((∃ v, ("status", v) ∈ attributesMembers a) ↔ a.Status ≠ "") ∧
    (∀ k v, (k, v) ∈ attributesMembers a → k ≠ "country" →
      v ≠ .null ∧ v ≠ .str "" ∧ v ≠ .arr [] ∧ v ≠ .bool false) := by
  refine ⟨rfl, ⟨_, (mem_attributesMembers a _ _).2 (Or.inl ⟨rfl, rfl⟩)⟩,
    ?_, ?_, ?_, ?_, ?_, ?_, ?_, ?_, ?_, ?_, ?_, ?_, ?_, ?_, ?_, ?_, ?_⟩
  · simp [mem_attributesMembers]
  · simp [mem_attributesMembers]
  · simp [mem_attributesMembers]
  · simp [mem_attributesMembers]
  · simp [mem_attributesMembers]
  · simp [mem_attributesMembers]
  · constructor
    · rintro ⟨v, h⟩
      simp [mem_attributesMembers] at h
      obtain ⟨x, l, hx, -⟩ := h
      exact ⟨x, l, hx⟩
    · rintro ⟨x, l, hx⟩
      exact ⟨JVal.arr (JVal.str x :: l.map JVal.str),
        (mem_attributesMembers a _ _).2
          (Or.inr (Or.inr (Or.inr (Or.inr (Or.inr (Or.inr (Or.inr (Or.inl ⟨rfl, x, l, hx, rfl⟩))))))))⟩
  · constructor
    · rintro ⟨v, h⟩
      simp [mem_attributesMembers] at h
      obtain ⟨x, l, hx, -⟩ := h
      exact ⟨x, l, hx⟩
    · rintro ⟨x, l, hx⟩
      exact ⟨JVal.arr (JVal.str x :: l.map JVal.str),
        (mem_attributesMembers a _ _).2
          (Or.inr (Or.inr (Or.inr (Or.inr (Or.inr (Or.inr (Or.inr (Or.inr (Or.inl ⟨rfl, x, l, hx, rfl⟩)))))))))⟩
  · simp [mem_attributesMembers]
  · simp [mem_attributesMembers]
  · simp [mem_attributesMembers]
  · simp [mem_attributesMembers]
  · simp [mem_attributesMembers]
  · simp only [mem_attributesMembers]
    constructor
    · rintro ⟨v, h⟩
      simp at h
      obtain ⟨p, hp, -⟩ := h
      simp [hp]
    · intro hne
      obtain ⟨p, hp⟩ := Option.ne_none_iff_exists'.1 hne
      exact ⟨encodePrivateIdentification p, by simp [hp]⟩
  · simp only [mem_attributesMembers]
    constructor
    · rintro ⟨v, h⟩
      simp at h
      obtain ⟨p, hp, -⟩ := h
      simp [hp]
    · intro hne
      obtain ⟨p, hp⟩ := Option.ne_none_iff_exists'.1 hne
      exact ⟨encodeOrganisationIdentification p, by simp [hp]⟩
  · simp [mem_attributesMembers]
  · intro k v hmem hk
    rw [mem_attributesMembers] at hmem
    rcases hmem with h | h | h | h | h | h | h | h | h | h | h | h | h | h | h | h | h
    · exact absurd h.1 hk
    all_goals first
      | (obtain ⟨-, hv, hs⟩ := h
         subst hv
         refine ⟨by simp, ?_, by simp, by simp⟩
         first
           | (simp; done)
           | simpa using hs)
      | (obtain ⟨-, x, l, -, hv⟩ := h
         subst hv
         simp)
      | (obtain ⟨-, p, -, hv⟩ := h
         subst hv
         simp [encodePrivateIdentification, encodeOrganisationIdentification])

end finn
